import Mathlib

/-!
Verification of the hybrid retrieval and tool-orchestration core of the
code-assistant repository.

The definitions below are a shallow embedding of the TypeScript source:

* `RAGPipeline` (keyword scoring, hybrid RRF search) from the RAG pipeline
  module (`_tokenize`, `_calculateSimilarity`, `_keywordSearch`,
  `_hybridRRFSearch`, `search`);
* `ProjectIndexer` chunk creation and size-string parsing;
* `embeddingUtils` (`cosineSimilarity`, `generateEmbeddingsBatch`,
  `generateFallbackEmbeddings`, `generateChunkEmbeddings`);
* `codeAssistant` tool loop (`_generateAnswerWithTools`) and tool executor
  (`_executeTool`).

JavaScript numbers are modelled by `ℚ` where the computations are exact
rational arithmetic, and by `ℝ` where square roots occur (cosine similarity).
JavaScript `Map` objects are modelled by insertion-ordered association lists
(`mapGet` / `mapSet`), and the stable `Array.prototype.sort` by a stable
insertion sort (`sortDesc`).
-/

namespace CodeAssistant

/-! ## Insertion-ordered maps (JavaScript `Map`) -/

/-- Lookup in an insertion-ordered association list (JS `Map.get`). -/
def mapGet {α : Type} (m : List (String × α)) (k : String) : Option α :=
  match m with
  | [] => none
  | (k', v) :: rest => if k' = k then some v else mapGet rest k

/-- Update in an insertion-ordered association list (JS `Map.set`):
an existing key keeps its position, a new key is appended at the end. -/
def mapSet {α : Type} (m : List (String × α)) (k : String) (v : α) :
    List (String × α) :=
  match m with
  | [] => [(k, v)]
  | (k', v') :: rest =>
      if k' = k then (k', v) :: rest else (k', v') :: mapSet rest k v

/-! ## Stable descending sort (JS `arr.sort((a, b) => b.score - a.score)`) -/

/-- Insert `x` in front of the first element whose key is `≤` the key of `x`.
Together with `sortDesc` this is a stable insertion sort in descending
key order, matching the stable JavaScript `Array.prototype.sort` with
comparator `(a, b) => key b - key a`. -/
def insertDesc {α : Type} {β : Type} [LinearOrder β] (f : α → β) (x : α) :
    List α → List α
  | [] => [x]
  | y :: ys => if f y ≤ f x then x :: y :: ys else y :: insertDesc f x ys

/-- Stable insertion sort, descending in the key `f`. -/
def sortDesc {α : Type} {β : Type} [LinearOrder β] (f : α → β) :
    List α → List α
  | [] => []
  | x :: xs => insertDesc f x (sortDesc f xs)

/-! ## Data model -/

/-- Model of `TextChunk.metadata` from the types module. -/
structure ChunkMetadata where
  source : String
  chunkIndex : ℕ
  totalChunks : ℕ
deriving DecidableEq, Repr

/-- Model of `TextChunk`: an indexed text fragment with an optional embedding. -/
structure TextChunk where
  id : String
  content : String
  embedding : Option (List ℚ)
  metadata : ChunkMetadata
deriving DecidableEq, Repr

instance : Inhabited TextChunk :=
  ⟨⟨"", "", none, ⟨"", 0, 0⟩⟩⟩

/-- Model of `SearchResult` as produced by the RAG pipeline. -/
structure SearchResult where
  content : String
  source : String
  similarity : ℚ
  metadata : ChunkMetadata
deriving DecidableEq, Repr

/-! ## Tokenization (`RAGPipeline._tokenize`) -/

/-- The stop-word set of `_tokenize`, in source order. -/
def stopWords : List String :=
  ["the", "a", "an", "and", "or", "but", "in", "on", "at", "to", "for",
   "of", "with", "by", "from", "as", "is", "was", "are", "be", "been",
   "being", "have", "has", "had", "do", "does", "did", "will", "would",
   "should", "could", "can", "may", "might", "must", "shall", "this",
   "that", "these", "those", "i", "you", "he", "she", "it", "we", "they",
   "what", "which", "who", "when", "where", "why", "how", "all", "each",
   "every", "both", "few", "more", "most", "other", "some", "such", "no",
   "nor", "not", "only", "own", "same", "so", "than", "too", "very",
   "import", "export", "from", "default", "function", "class", "const",
   "let", "var", "return", "if", "else", "try", "catch", "throw", "new",
   "async", "await", "promise", "error", "console", "log", "json", "parse"]

/-- JavaScript regex `\w`: ASCII letters, digits, underscore. -/
def isWordCharJs (c : Char) : Bool :=
  c.isAlphanum || c = '_'

/-- Accumulator pass collecting maximal runs of word characters; `acc`
holds the reversed characters of the run currently being read. -/
def wordRunsGo : List Char → List Char → List String
  | [], acc => if acc.isEmpty then [] else [String.mk acc.reverse]
  | c :: cs, acc =>
      if isWordCharJs c then wordRunsGo cs (c :: acc)
      else if acc.isEmpty then wordRunsGo cs []
      else String.mk acc.reverse :: wordRunsGo cs []

/-- Maximal runs of word characters (the `\b\w+\b` matches of the source). -/
def wordRuns (cs : List Char) : List String :=
  wordRunsGo cs []

/-- Model of `RAGPipeline._tokenize`: lower-case, extract `\w+` runs, drop stop
words and tokens of length `≤ 2`.  The two camel-case `replace` calls of
the source run after `toLowerCase()` and therefore can never match an
ASCII uppercase letter; they are the identity and are not repeated here. -/
def tokenize (text : String) : List String :=
  (wordRuns (text.toList.map Char.toLower)).filter
    (fun t => !(stopWords.contains t) && t.length > 2)

/-! ## Keyword scoring (`RAGPipeline._calculateSimilarity`) -/

/-- Term-frequency map of the chunk tokens, in first-occurrence order
(the JS `Map` built by `_calculateSimilarity`). -/
def buildFreq (ws : List String) : List (String × ℕ) :=
  ws.foldl (fun m w => mapSet m w ((mapGet m w).getD 0 + 1)) []

/-- Number of equal leading characters of two strings (the inner
`commonPrefix` loop, which stops at the first mismatch). -/
def commonStemLen : List Char → List Char → ℕ
  | a :: as, b :: bs => if a = b then commonStemLen as bs + 1 else 0
  | _, _ => 0

/-- The partial-match scan of `_calculateSimilarity`: walk the distinct
chunk tokens in first-occurrence order and return, for the first token
whose minimum length with the query token is `≥ 4` and which shares at
least 4 leading characters, the pair (shared length, frequency). -/
def stemScan (q : String) : List (String × ℕ) → Option (ℕ × ℕ)
  | [] => none
  | (cWord, f) :: rest =>
      if min q.length cWord.length ≥ 4 then
        let cp := commonStemLen q.toList cWord.toList
        if cp ≥ 4 then some (cp, f) else stemScan q rest
      else stemScan q rest

/-- One step of the query-word loop of `_calculateSimilarity`, threading
the accumulated `(score, matchedWords)` pair. -/
def simStep (freq : List (String × ℕ)) (acc : ℚ × ℕ) (qWord : String) :
    ℚ × ℕ :=
  match mapGet freq qWord with
  | some frequency =>
      (acc.1 + 3 * ((min frequency 5 : ℕ) / 5 : ℚ), acc.2 + 1)
  | none =>
      match stemScan qWord freq with
      | some (cp, frequency) =>
          (acc.1 + ((cp : ℚ) / (qWord.length : ℚ)) * (3 / 2)
              * ((min frequency 5 : ℕ) / 5 : ℚ),
           acc.2 + 1)
      | none => acc

/-- Model of `RAGPipeline._calculateSimilarity`. -/
def calculateSimilarity (queryWords chunkWords : List String) : ℚ :=
  if queryWords = [] ∨ chunkWords = [] then 0
  else
    let freq := buildFreq chunkWords
    let sm := queryWords.foldl (simStep freq) (0, 0)
    let matchRatio : ℚ := (sm.2 : ℚ) / (queryWords.length : ℚ)
    let baseScore : ℚ := min (sm.1 / (2 * (queryWords.length : ℚ))) 1
    if 0 < matchRatio then max baseScore (matchRatio * (7 / 10)) else 0

/-- The per-chunk keyword score as computed inside `_keywordSearch` and
`_hybridRRFSearch`: `_calculateSimilarity` plus, when it returns `0`, the
minimal length-based tie-break score `min(|C|/1000, 0.1)`. -/
def chunkKeywordScore (queryWords chunkWords : List String) : ℚ :=
  let score := calculateSimilarity queryWords chunkWords
  if score = 0 then min ((chunkWords.length : ℚ) / 1000) (1 / 10) else score

/-! ## RAG pipeline state and hybrid search (`RAGPipeline`) -/

/-- The `RAGPipeline` state relevant to `search`: the chunk set and
whether an embeddings client was configured (`this.embeddings !==
undefined`).  The source's `hasEmbeddings` field is set by `setChunks`
from the chunk list and is modelled as the derived `hasEmbeddings`
function below. -/
structure RagState where
  chunks : List TextChunk
  embeddingsConfigured : Bool

/-- Model of `chunk.embedding !== undefined && chunk.embedding.length > 0`. -/
def chunkHasEmbedding (c : TextChunk) : Bool :=
  match c.embedding with
  | some e => e.length > 0
  | none => false

/-- The `hasEmbeddings` flag computed by `setChunks`. -/
def hasEmbeddings (st : RagState) : Bool :=
  st.chunks.any chunkHasEmbedding

/-- Model of `RAGPipeline.isSemanticSearchAvailable`. -/
def isSemanticSearchAvailable (st : RagState) : Bool :=
  hasEmbeddings st && st.embeddingsConfigured

/-- The chunk-scoring loop shared textually by `_keywordSearch` and
`_hybridRRFSearch`: score each chunk with `_calculateSimilarity` on the
tokenized contents, substituting the length tie-break when it is `0`. -/
def scoredChunks (chunks : List TextChunk) (queryWords : List String) :
    List (TextChunk × ℚ) :=
  chunks.map (fun c => (c, chunkKeywordScore queryWords (tokenize c.content)))

/-- Packaging of a scored chunk as a `SearchResult` with the raw score as
similarity (`_keywordSearch`'s final `map`). -/
def toSearchResult (p : TextChunk × ℚ) : SearchResult :=
  ⟨p.1.content, p.1.metadata.source, p.2, p.1.metadata⟩

/-- Model of `RAGPipeline._keywordSearch`. -/
def keywordSearch (st : RagState) (query : String) (maxResults : ℕ) :
    List SearchResult :=
  let queryWords := tokenize query
  let scores := scoredChunks st.chunks queryWords
  ((sortDesc (fun p => p.2) scores).take maxResults).map toSearchResult

/-- One `forEach(({chunk}, rank) => ...)` pass of the RRF accumulation in
`_hybridRRFSearch`: for each chunk, at 0-based position `rank`, add
`1/(k + rank + 1)` with `k = 60` into the `rrfScores` map and record the
chunk in `chunkMap`. -/
def rrfPassGo (rank : ℕ) :
    List TextChunk →
    List (String × ℚ) × List (String × TextChunk) →
    List (String × ℚ) × List (String × TextChunk)
  | [], st => st
  | c :: rest, (es, cm) =>
      rrfPassGo (rank + 1) rest
        (mapSet es c.id ((mapGet es c.id).getD 0 + 1 / (60 + (rank : ℚ) + 1)),
         mapSet cm c.id c)

/-- The RRF fusion block of `_hybridRRFSearch`, as a function of the two
ranked candidate lists: accumulate both passes, sort the combined scores
descending, keep the top `maxResults` and divide the fused score by
`k + 2 = 62` for display. -/
def rrfFuse (keywordResults semanticResults : List TextChunk)
    (maxResults : ℕ) : List SearchResult :=
  let st1 := rrfPassGo 0 keywordResults ([], [])
  let st2 := rrfPassGo 0 semanticResults st1
  let finalResults :=
    sortDesc (fun p => p.2)
      (st2.1.map (fun e => ((mapGet st2.2 e.1).getD default, e.2)))
  (finalResults.take maxResults).map
    (fun p => ⟨p.1.content, p.1.metadata.source, p.2 / (60 + 2), p.1.metadata⟩)

/-- Model of `RAGPipeline._hybridRRFSearch`.  Note that the source's
`semanticResults` is initialised to `[]` and then, when `hasEmbeddings`
holds, set to `keywordResults` ("Use keyword results as semantic
approximation"); the cosine-based `_semanticSearch` helper is not called
on this path. -/
def hybridRRFSearch (st : RagState) (query : String) (maxResults : ℕ) :
    List SearchResult :=
  let queryWords := tokenize query
  let keywordScores := scoredChunks st.chunks queryWords
  let keywordResults :=
    (sortDesc (fun p => p.2) keywordScores).take (maxResults * 2)
  let semanticResults := if hasEmbeddings st then keywordResults else []
  rrfFuse (keywordResults.map Prod.fst) (semanticResults.map Prod.fst)
    maxResults

/-- Model of `RAGPipeline.search`: hybrid RRF search when semantic search is
available, keyword-only search otherwise. -/
def search (st : RagState) (query : String) (maxResults : ℕ) :
    List SearchResult :=
  if isSemanticSearchAvailable st then hybridRRFSearch st query maxResults
  else keywordSearch st query maxResults

/-! ## Claimed semantics of the semantic ranking (spec side)

Claim C1 describes the semantic ranking as an independent cosine-scored
ranking of the embedded chunks against the query's embedding.  The
definitions below follow the words of the spec/claim (not the source) and
exist solely to be compared with the source-derived `search` above. -/

/-- Dot product of two real vectors. -/
noncomputable def dotList (a b : List ℝ) : ℝ :=
  (List.zipWith (· * ·) a b).sum

/-- Euclidean norm of a real vector. -/
noncomputable def normList (a : List ℝ) : ℝ :=
  Real.sqrt ((a.map (fun x => x ^ 2)).sum)

/-- Cosine similarity as the spec words it: `dot/(‖a‖·‖b‖)`, `0` if either
vector's norm is `0`. -/
noncomputable def cosineValue (a b : List ℝ) : ℝ :=
  if normList a = 0 ∨ normList b = 0 then 0
  else dotList a b / (normList a * normList b)

/-- The semantic ranking as claim C1 words it: score each chunk that
carries an embedding by cosine similarity with the query's embedding,
order best-first, truncate to `2 × maxResults` candidates. -/
noncomputable def semanticRankingClaim (qe : List ℝ) (chunks : List TextChunk)
    (maxResults : ℕ) : List TextChunk :=
  ((sortDesc (fun p => p.2)
      ((chunks.filter (fun c => c.embedding.isSome)).map
        (fun c =>
          (c, cosineValue qe ((c.embedding.getD []).map (fun x => (x : ℝ))))))
    ).take (2 * maxResults)).map Prod.fst

/-- Hybrid search as claim C1 words it: fuse the keyword ranking
(truncated to `2 × maxResults`) with the independent cosine-based
semantic ranking. -/
noncomputable def hybridSearchClaim (qe : List ℝ) (st : RagState)
    (query : String) (maxResults : ℕ) : List SearchResult :=
  let queryWords := tokenize query
  let keywordResults :=
    (sortDesc (fun p => p.2) (scoredChunks st.chunks queryWords)).take
      (maxResults * 2)
  rrfFuse (keywordResults.map Prod.fst)
    (semanticRankingClaim qe st.chunks maxResults) maxResults

/-! ## Declarative reading of the keyword score (claim C3) -/

/-- The contribution of one query token to the raw keyword score:
`3·min(freq,5)/5` for an exact match, `1.5·(shared/|q|)·min(freq,5)/5`
for the first sufficiently long shared stem, `0` otherwise. -/
def tokenContribution (freq : List (String × ℕ)) (q : String) : ℚ :=
  match mapGet freq q with
  | some frequency => 3 * ((min frequency 5 : ℕ) / 5 : ℚ)
  | none =>
      match stemScan q freq with
      | some (cp, frequency) =>
          ((cp : ℚ) / (q.length : ℚ)) * (3 / 2)
            * ((min frequency 5 : ℕ) / 5 : ℚ)
      | none => 0

/-- Whether one query token matches the chunk, exactly or by stem. -/
def tokenMatched (freq : List (String × ℕ)) (q : String) : Bool :=
  (mapGet freq q).isSome || (stemScan q freq).isSome

/-- The raw keyword score of claim C3: sum of the per-token contributions. -/
def rawScore (Q C : List String) : ℚ :=
  (Q.map (tokenContribution (buildFreq C))).sum

/-- The number of matched query tokens of claim C3. -/
def matchedCount (Q C : List String) : ℕ :=
  Q.countP (tokenMatched (buildFreq C))

/-! ## Indexer: whitespace split and chunk windows
(`ProjectIndexer._createChunks`) -/

/-- JavaScript `content.split(/\s+/)` on the character list: the segments
between maximal whitespace runs, including an empty leading (trailing)
segment when the content starts (ends) with whitespace, and `[""]` for the
empty string.  The state is `some acc` while reading a segment (characters
reversed) and `none` while inside a whitespace run. -/
def splitWsGo : List Char → Option (List Char) → List String
  | [], some acc => [String.mk acc.reverse]
  | [], none => [""]
  | c :: cs, some acc =>
      if c.isWhitespace then String.mk acc.reverse :: splitWsGo cs none
      else splitWsGo cs (some (c :: acc))
  | c :: cs, none =>
      if c.isWhitespace then splitWsGo cs none
      else splitWsGo cs (some [c])

/-- JavaScript `s.split(/\s+/)`. -/
def splitWsJs (s : String) : List String :=
  splitWsGo s.toList (some [])

/-- JavaScript `arr.join(' ')`. -/
def joinWords : List String → String
  | [] => ""
  | w :: rest => rest.foldl (fun a b => a ++ " " ++ b) w

/-- The window-start loop of `_createChunks`
(`for (let i = 0; i < words.length; i += chunkSize - chunkOverlap)`),
with an explicit iteration budget.  The budget `len + 1` used by
`chunkStarts` is never exhausted when `step ≥ 1`; `step = 0` (the
degenerate `chunkOverlap ≥ chunkSize` configuration, on which the source
loops forever) is cut off. -/
def chunkLoopGo (len step : ℕ) : ℕ → ℕ → List ℕ
  | _, 0 => []
  | i, fuel + 1 =>
      if i < len then
        if step = 0 then [] else i :: chunkLoopGo len step (i + step) fuel
      else []

/-- The list of window start offsets produced by the `_createChunks` loop. -/
def chunkStarts (len step : ℕ) : List ℕ :=
  chunkLoopGo len step 0 (len + 1)

/-- Model of `ProjectIndexer._createChunks`, one file: split the content on
whitespace, slice windows of `chunkSize` words at the loop's start
offsets, skip empty windows, assign `chunk_<globalChunkId++>` ids and the
0-based `chunkIndex`, then patch every chunk's `totalChunks`.  Returns
the chunks and the next global chunk id. -/
def createChunksForFile (chunkSize chunkOverlap gid0 : ℕ)
    (path content : String) : List TextChunk × ℕ :=
  let words := splitWsJs content
  let starts := chunkStarts words.length (chunkSize - chunkOverlap)
  let acc := starts.foldl
    (fun (acc : List TextChunk × ℕ) i =>
      let chunkWords := (words.drop i).take chunkSize
      if chunkWords = [] then acc
      else
        (acc.1 ++ [{ id := "chunk_" ++ toString acc.2,
                     content := joinWords chunkWords,
                     embedding := none,
                     metadata := { source := path,
                                   chunkIndex := acc.1.length,
                                   totalChunks := 0 } }],
         acc.2 + 1))
    ([], gid0)
  (acc.1.map
      (fun c =>
        { c with metadata := { c.metadata with totalChunks := acc.1.length } }),
   acc.2)

/-- Model of `ProjectIndexer._createChunks` over all indexed files, threading the
process-wide `globalChunkId`. -/
def createChunks (chunkSize chunkOverlap : ℕ)
    (files : List (String × String)) : List TextChunk :=
  (files.foldl
    (fun (acc : List TextChunk × ℕ) f =>
      let r := createChunksForFile chunkSize chunkOverlap acc.2 f.1 f.2
      (acc.1 ++ r.1, r.2))
    ([], 0)).1

/-! ## Indexer: size-string parsing (`ProjectIndexer._parseSize`) -/

/-- Model of `parseInt(value, 10)` on an all-digit string. -/
def digitsToNat (ds : List Char) : ℕ :=
  ds.foldl (fun n c => 10 * n + (c.toNat - '0'.toNat)) 0

/-- The regex `^(\d+)([A-Z]+)$` of `_parseSize`: the whole string must be
a nonempty digit run followed by a nonempty run of uppercase letters. -/
def parseSizeMatch (s : String) : Option (ℕ × String) :=
  let cs := s.toList
  let ds := cs.takeWhile Char.isDigit
  let rest := cs.dropWhile Char.isDigit
  if !ds.isEmpty && !rest.isEmpty && rest.all (fun c => 'A' ≤ c && c ≤ 'Z')
  then some (digitsToNat ds, String.mk rest)
  else none

/-- The unit table of `_parseSize` with the `units[unit] || 1` fallback. -/
def unitFactor (unit : String) : ℕ :=
  if unit = "B" then 1
  else if unit = "KB" then 1024
  else if unit = "MB" then 1024 * 1024
  else if unit = "GB" then 1024 * 1024 * 1024
  else 1

/-- Model of `ProjectIndexer._parseSize`: a non-matching size string yields the
default `1024 * 1024` (1 MB). -/
def parseSize (s : String) : ℕ :=
  match parseSizeMatch s with
  | none => 1024 * 1024
  | some (v, unit) => v * unitFactor unit

/-! ## Embedding generation (`embeddingUtils`) -/

/-- The sequential per-text loop of `generateEmbeddingsBatch`: the first
provider failure (transport error, timeout, or non-ok HTTP status) aborts
the whole batch. -/
def batchEmbedRaw (provider : String → Except String (List ℚ)) :
    List String → Except String (List (List ℚ))
  | [] => .ok []
  | t :: ts =>
      match provider t with
      | .error e => .error e
      | .ok v =>
          match batchEmbedRaw provider ts with
          | .error e => .error e
          | .ok vs => .ok (v :: vs)

/-- Model of `generateEmbeddingsBatch` including its catch-and-rewrap of the error
message. -/
def generateEmbeddingsBatch (provider : String → Except String (List ℚ))
    (texts : List String) : Except String (List (List ℚ)) :=
  match batchEmbedRaw provider texts with
  | .error e => .error ("Failed to generate embeddings: " ++ e)
  | .ok vs => .ok vs

/-- The tokenizer of `generateFallbackEmbeddings`:
`content.toLowerCase().split(/\s+/).filter(t => t.length > 2)`. -/
def fallbackTokens (content : String) : List String :=
  (splitWsGo (content.toList.map Char.toLower) (some [])).filter
    (fun t => t.length > 2)

/-- The vocabulary of `generateFallbackEmbeddings`: all fallback tokens of
all chunks, first occurrence first (JS `Set` insertion order). -/
def vocabOf (chunks : List TextChunk) : List String :=
  chunks.foldl
    (fun v c =>
      (fallbackTokens c.content).foldl
        (fun v t => if v.contains t then v else v ++ [t]) v)
    []

/-- First index of `t` in `l` (the `vocabIndex` map). -/
def indexOf : List String → String → Option ℕ
  | [], _ => none
  | x :: xs, t =>
      if x = t then some 0
      else match indexOf xs t with
        | some i => some (i + 1)
        | none => none

/-- One fallback vector: a zero vector of width `min(vocab, 256)` with
`freq / tokenCount` written at the vocabulary index of each distinct
token that falls below index 256. -/
def fallbackVector (vocab : List String) (tokens : List String) : List ℚ :=
  let width := min vocab.length 256
  let termFreq := buildFreq tokens
  termFreq.foldl
    (fun vec p =>
      match indexOf vocab p.1 with
      | some idx =>
          if idx < 256 then vec.set idx ((p.2 : ℚ) / (tokens.length : ℚ))
          else vec
      | none => vec)
    (List.replicate width 0)

/-- Model of `generateFallbackEmbeddings`. -/
def generateFallbackEmbeddings (chunks : List TextChunk) : List (List ℚ) :=
  let vocab := vocabOf chunks
  chunks.map (fun c => fallbackVector vocab (fallbackTokens c.content))

/-- Model of `chunks.map((chunk, idx) => ...)`. -/
def mapWithIdx {α β : Type} (f : ℕ → α → β) : ℕ → List α → List β
  | _, [] => []
  | i, a :: as => f i a :: mapWithIdx f (i + 1) as

/-- Model of `generateChunkEmbeddings`: disabled configurations pass the chunks
through; a successful batch attaches the provider vectors positionally; a
failed batch logs two warnings and attaches the local fallback vectors
instead.  Returns the chunks and the logged warnings. -/
def generateChunkEmbeddings (enabled : Bool)
    (provider : String → Except String (List ℚ)) (chunks : List TextChunk) :
    List TextChunk × List String :=
  if !enabled then (chunks, [])
  else
    match generateEmbeddingsBatch provider (chunks.map (fun c => c.content)) with
    | .ok vecs =>
        (mapWithIdx (fun idx c => { c with embedding := vecs.get? idx }) 0 chunks,
         [])
    | .error e =>
        let fallbackVecs := generateFallbackEmbeddings chunks
        (mapWithIdx (fun idx c => { c with embedding := fallbackVecs.get? idx })
           0 chunks,
         ["⚠️  Failed to generate Ollama embeddings: " ++ e,
          "⚠️  Using fallback keyword-based embeddings instead"])

/-! ## Cosine similarity (`embeddingUtils.cosineSimilarity`) -/

/-- Model of `cosineSimilarity` as in the source: reject different lengths, fold the
dot product and both squared norms over the paired entries, return `0`
when either norm is `0`, otherwise the normalized dot product.  A thrown
`Error` is modelled as `Except.error` with the thrown message. -/
noncomputable def cosineSimilarity (a b : List ℝ) : Except String ℝ :=
  if a.length ≠ b.length then .error "Vectors must have the same length"
  else
    let acc := (List.zip a b).foldl
      (fun (acc : ℝ × ℝ × ℝ) p =>
        (acc.1 + p.1 * p.2, acc.2.1 + p.1 * p.1, acc.2.2 + p.2 * p.2))
      (0, 0, 0)
    let normA := Real.sqrt acc.2.1
    let normB := Real.sqrt acc.2.2
    if normA = 0 ∨ normB = 0 then .ok 0
    else .ok (acc.1 / (normA * normB))

/-! ## Tool-directive parsing (`_generateAnswerWithTools` regex) -/

/-- Does `p` occur as the leading segment of the text? -/
def startsWithList : List Char → List Char → Bool
  | [], _ => true
  | _ :: _, [] => false
  | p :: ps, c :: cs => p = c && startsWithList ps cs

/-- Drop the literal `p` from the front of the text, if present. -/
def dropLit : List Char → List Char → Option (List Char)
  | [], cs => some cs
  | _ :: _, [] => none
  | p :: ps, c :: cs => if p = c then dropLit ps cs else none

/-- Lazy body capture `([\s\S]*?)` up to the first occurrence of the
closing literal; `none` when the closing literal never occurs. -/
def findCloseGo (close : List Char) : List Char → List Char → Option (List Char)
  | [], _ => none
  | c :: cs, acc =>
      if startsWithList close (c :: cs) then some acc.reverse
      else findCloseGo close cs (c :: acc)

/-- Match `<tool>(\w+)<\/tool>(?:\s*<input>([\s\S]*?)<\/input>)?` at the
current position: the tool name is the maximal nonempty `\w+` run (no
backtracking can help, since `</tool>` cannot start with a word
character), and the optional input group matches greedily-skipped
whitespace, the literal `<input>`, and the shortest body closed by
`</input>`. -/
def matchToolHere (cs : List Char) : Option (String × Option String) :=
  match dropLit "<tool>".toList cs with
  | none => none
  | some r1 =>
      let w := r1.takeWhile isWordCharJs
      let r2 := r1.dropWhile isWordCharJs
      if w.isEmpty then none
      else
        match dropLit "</tool>".toList r2 with
        | none => none
        | some r3 =>
            let r4 := r3.dropWhile (fun c => c.isWhitespace)
            match dropLit "<input>".toList r4 with
            | none => some (String.mk w, none)
            | some r5 =>
                match findCloseGo "</input>".toList r5 [] with
                | none => some (String.mk w, none)
                | some body => some (String.mk w, some (String.mk body))

/-- Scan left to right for the first position where the tool directive
matches; also return the text before the match
(`responseText.substring(0, toolMatch.index)`). -/
def findToolMatchGo : List Char → List Char → Option (String × Option String × String)
  | [], _ => none
  | c :: cs, pre =>
      match matchToolHere (c :: cs) with
      | some (n, i) => some (n, i, String.mk pre.reverse)
      | none => findToolMatchGo cs (c :: pre)

/-- Model of the regex call on the response text:
tool name, optional raw input text, and the text before the match. -/
def findToolMatch (s : String) : Option (String × Option String × String) :=
  findToolMatchGo s.toList []

/-! ## Tool-calling loop (`_generateAnswerWithTools`) -/

/-- JavaScript `String.prototype.trim`. -/
def jsTrim (s : String) : String :=
  String.mk
    (((s.toList.dropWhile (fun c => c.isWhitespace)).reverse.dropWhile
        (fun c => c.isWhitespace)).reverse)

/-- The follow-up prompt built after a tool execution. -/
def followupPrompt (question toolResult : String) : String :=
  "ORIGINAL USER QUESTION: \"" ++ question ++
    "\"\n\nTool Result (this is the data you need to use):\n" ++ toolResult ++
    "\n\nBased ONLY on the tool result above, provide a complete and detailed answer to the user's question. Include ALL relevant information from the tool result. Be specific and thorough. Do NOT make up information. Just answer the question naturally using the data provided."

/-- The input resolution of one loop iteration: no `<input>` group means
no input; an empty capture is falsy and skipped; otherwise the platform
`JSON.parse` is attempted and a parse failure silently yields no input. -/
def parseInputJs {J : Type} (jsonParse : String → Option J) :
    Option String → Option J
  | none => none
  | some s => if s = "" then none else jsonParse s

/-- Result of the tool loop, instrumented with the number of LLM
invocations attempted and the trace of executed tool calls. -/
structure ToolLoopResult (J : Type) where
  answer : String
  llmCalls : ℕ
  toolTrace : List (String × Option J)
  usedTools : List String
deriving Repr

/-- The `while (iterations < maxIterations)` body of
`_generateAnswerWithTools`.  `llm` is the completion oracle (indexed by
the number of prior invocations, applied to the current prompt), `exec`
the tool executor, and `jsonParse` the platform `JSON.parse` returning
`none` on malformed input; both fallible calls sit inside the iteration's
`try`, whose `catch` breaks the loop keeping the accumulated answer. -/
def toolLoopGo {J : Type} (llm : ℕ → String → Except String String)
    (exec : String → Option J → Except String String)
    (jsonParse : String → Option J) (question : String) :
    ℕ → ℕ → String → String → List String → List (String × Option J) →
    ToolLoopResult J
  | 0, calls, _, ans, used, tr => ⟨ans, calls, tr, used⟩
  | fuel + 1, calls, prompt, ans, used, tr =>
      match llm calls prompt with
      | .error _ => ⟨ans, calls + 1, tr, used⟩
      | .ok responseText =>
          match findToolMatch responseText with
          | none => ⟨responseText, calls + 1, tr, used⟩
          | some (toolName, inputStr, pre) =>
              let textBeforeTool := jsTrim pre
              let ans' :=
                if textBeforeTool ≠ "" then ans ++ textBeforeTool ++ "\n\n"
                else ans
              let used' :=
                if used.contains toolName then used else used ++ [toolName]
              let input : Option J := parseInputJs jsonParse inputStr
              match exec toolName input with
              | .error _ => ⟨ans', calls + 1, tr ++ [(toolName, input)], used'⟩
              | .ok toolResult =>
                  toolLoopGo llm exec jsonParse question fuel (calls + 1)
                    (followupPrompt question toolResult) ans' used'
                    (tr ++ [(toolName, input)])

/-- Model of `_generateAnswerWithTools`: build the initial prompt, run at most
`maxIterations = 5` loop iterations, return the trimmed answer. -/
def generateAnswerWithTools {J : Type} (llm : ℕ → String → Except String String)
    (exec : String → Option J → Except String String)
    (jsonParse : String → Option J)
    (systemPrompt question contextSection toolsDescription : String) :
    ToolLoopResult J :=
  let fullPrompt :=
    systemPrompt ++ "\n\nQuestion: " ++ question ++ contextSection ++ "\n\n" ++
      toolsDescription
  let r := toolLoopGo llm exec jsonParse question 5 0 fullPrompt "" [] []
  { r with answer := jsTrim r.answer }

/-! ## Tool executor (`_executeTool`)

The CRM/Tasks stores and git are external collaborators (spec §1), so
they enter the model as abstract interface functions; `JSON.stringify`
and the clock are platform services, also abstract.  The dispatch,
presence validation, error strings and payload construction below follow
`_executeTool` case by case. -/

/-- A JSON value, as assembled by the success branches of `_executeTool`
and serialized by the abstract `stringify`. -/
inductive Jx where
  | null : Jx
  | bool : Bool → Jx
  | num : ℕ → Jx
  | str : String → Jx
  | arr : List Jx → Jx
  | obj : List (String × Jx) → Jx

/-- A ticket message, as constructed by `create_ticket` and `add_message`. -/
structure MsgRec where
  sender : String
  text : String
  timestamp : String

/-- A CRM ticket, in the shape `create_ticket` constructs. -/
structure TicketRec where
  id : String
  user_id : String
  title : String
  description : String
  category : String
  priority : String
  status : String
  created_at : String
  updated_at : String
  messages : List MsgRec

/-- The `updates` object of `update_ticket`. -/
structure TicketUpdates where
  status : Option String
  priority : Option String
  updated_at : String

/-- A task record, in the shape `create_task` constructs. -/
structure TaskRec where
  id : String
  title : String
  description : String
  priority : String
  status : String
  assignee : String
  created_at : String
  updated_at : String
  depends_on : List String

/-- The `updates` object of `update_task`. -/
structure TaskUpdates where
  status : Option String
  priority : Option String
  assignee : Option String

/-- The `filters` object of `list_tasks`. -/
structure TaskFilters where
  priority : Option String
  status : Option String
  assignee : Option String

/-- The CRM service interface used by `_executeTool` (collaborator
boundary; mutators are modelled as opaque-effect functions whose store
effects are outside this model). -/
structure CrmService where
  getUser : String → Option Jx
  getUserTickets : String → List TicketRec
  getTicket : String → Option TicketRec
  dataTickets : List TicketRec
  createTicket : TicketRec → Unit
  updateTicket : String → TicketUpdates → Unit
  addTicketMessage : String → MsgRec → Unit

/-- The Tasks service interface used by `_executeTool`. -/
structure TasksService where
  getTasks : TaskFilters → List TaskRec
  getTask : String → Option TaskRec
  createTask : TaskRec → Unit
  updateTask : String → TaskUpdates → Unit

/-- The executor's environment: optional CRM/Tasks services, the git
collaborator calls (fallible; a thrown error carries its message), the
platform JSON serializer, and the clock. -/
structure ToolEnv where
  crm : Option CrmService
  tasks : Option TasksService
  gitBranch : Except String String
  gitStatus : Except String String
  stringify : Jx → String
  nowMs : ℕ
  nowIso : String

/-- The input object of a tool invocation: the fields `_executeTool`
destructures, each possibly absent. -/
structure ToolInput where
  user_id : Option String := none
  ticket_id : Option String := none
  task_id : Option String := none
  title : Option String := none
  description : Option String := none
  text : Option String := none
  sender : Option String := none
  category : Option String := none
  priority : Option String := none
  status : Option String := none
  query : Option String := none
  assignee : Option String := none
  depends_on : Option (List String) := none

/-- The empty object substituted by `input || {}`. -/
def emptyInput : ToolInput := {}

/-- JavaScript truthiness of an optional string field (`undefined` and
`""` are falsy). -/
def truthy : Option String → Bool
  | none => false
  | some s => s ≠ ""

/-- Model of `s.toLowerCase()`. -/
def strToLower (s : String) : String :=
  String.mk (s.toList.map Char.toLower)

/-- Occurrence of `needle` anywhere in the text. -/
def containsGo (needle : List Char) : List Char → Bool
  | [] => startsWithList needle []
  | c :: cs => startsWithList needle (c :: cs) || containsGo needle cs

/-- JavaScript `hay.includes(needle)`. -/
def strIncludes (hay needle : String) : Bool :=
  containsGo needle.toList hay.toList

/-- Serialization of a ticket message. -/
def msgToJx (m : MsgRec) : Jx :=
  .obj [("sender", .str m.sender), ("text", .str m.text),
        ("timestamp", .str m.timestamp)]

/-- Serialization of a ticket. -/
def ticketToJx (t : TicketRec) : Jx :=
  .obj [("id", .str t.id), ("user_id", .str t.user_id),
        ("title", .str t.title), ("description", .str t.description),
        ("category", .str t.category), ("priority", .str t.priority),
        ("status", .str t.status), ("created_at", .str t.created_at),
        ("updated_at", .str t.updated_at),
        ("messages", .arr (t.messages.map msgToJx))]

/-- Serialization of a task. -/
def taskToJx (t : TaskRec) : Jx :=
  .obj [("id", .str t.id), ("title", .str t.title),
        ("description", .str t.description), ("priority", .str t.priority),
        ("status", .str t.status), ("assignee", .str t.assignee),
        ("created_at", .str t.created_at), ("updated_at", .str t.updated_at),
        ("depends_on", .arr (t.depends_on.map Jx.str))]

/-- The fixed tool catalog of the executor's `switch`. -/
def toolNames : List String :=
  ["git_branch", "git_status", "get_user", "list_tickets", "create_ticket",
   "update_ticket", "add_message", "search_tickets", "list_tasks",
   "get_task", "create_task", "update_task"]

/-- Model of `_executeTool`: total — every branch, including unknown tools, missing
required fields and caught collaborator errors, returns a string. -/
def executeTool (env : ToolEnv) (toolName : String)
    (input : Option ToolInput) : String :=
  match env.crm with
  | none => "Error: CRM Service not initialized"
  | some crm =>
    let i := input.getD emptyInput
    if toolName = "git_branch" then
      match env.gitBranch with
      | .ok branch => "Current git branch: " ++ branch
      | .error msg => "Error executing tool: " ++ msg
    else if toolName = "git_status" then
      match env.gitStatus with
      | .ok status =>
          if status ≠ "" then "Git Status:\n" ++ status
          else "Git repository is clean (no changes)"
      | .error msg => "Error executing tool: " ++ msg
    else if toolName = "get_user" then
      if !truthy i.user_id then "Error: user_id is required for get_user"
      else
        let user_id := i.user_id.getD ""
        match crm.getUser user_id with
        | none => "Error: User " ++ user_id ++ " not found"
        | some user =>
            env.stringify (.obj [("success", .bool true), ("user", user)])
    else if toolName = "list_tickets" then
      if !truthy i.user_id then "Error: user_id is required for list_tickets"
      else
        let tickets := crm.getUserTickets (i.user_id.getD "")
        let filtered :=
          if truthy i.status then
            tickets.filter (fun t => t.status = i.status.getD "")
          else tickets
        env.stringify (.obj [("success", .bool true),
          ("count", .num filtered.length),
          ("tickets", .arr (filtered.map ticketToJx))])
    else if toolName = "create_ticket" then
      if !truthy i.user_id || !truthy i.title || !truthy i.description then
        "Error: user_id, title, and description are required for create_ticket"
      else
        let user_id := i.user_id.getD ""
        match crm.getUser user_id with
        | none => "Error: User " ++ user_id ++ " not found"
        | some _ =>
            let ticketId := "ticket_" ++ toString env.nowMs
            let ticket : TicketRec :=
              { id := ticketId, user_id := user_id, title := i.title.getD "",
                description := i.description.getD "",
                category :=
                  if truthy i.category then i.category.getD "" else "other",
                priority :=
                  if truthy i.priority then i.priority.getD "" else "medium",
                status := "open", created_at := env.nowIso,
                updated_at := env.nowIso,
                messages := [⟨"user", i.description.getD "", env.nowIso⟩] }
            let _ := crm.createTicket ticket
            env.stringify (.obj [("success", .bool true),
              ("ticket_id", .str ticketId),
              ("message", .str "Ticket created successfully")])
    else if toolName = "update_ticket" then
      if !truthy i.ticket_id then "Error: ticket_id is required for update_ticket"
      else
        let ticket_id := i.ticket_id.getD ""
        match crm.getTicket ticket_id with
        | none => "Error: Ticket " ++ ticket_id ++ " not found"
        | some _ =>
            let updates : TicketUpdates :=
              { status := if truthy i.status then i.status else none,
                priority := if truthy i.priority then i.priority else none,
                updated_at := env.nowIso }
            let _ := crm.updateTicket ticket_id updates
            let updatedTicket := crm.getTicket ticket_id
            env.stringify (.obj [("success", .bool true),
              ("message",
               .str ("Ticket " ++ ticket_id ++ " updated successfully")),
              ("ticket",
               match updatedTicket with
               | some t => ticketToJx t
               | none => .null)])
    else if toolName = "add_message" then
      if !truthy i.ticket_id || !truthy i.text then
        "Error: ticket_id and text are required for add_message"
      else
        let ticket_id := i.ticket_id.getD ""
        match crm.getTicket ticket_id with
        | none => "Error: Ticket " ++ ticket_id ++ " not found"
        | some _ =>
            let _ := crm.addTicketMessage ticket_id
              ⟨if truthy i.sender then i.sender.getD "" else "support_agent",
               i.text.getD "", env.nowIso⟩
            env.stringify (.obj [("success", .bool true),
              ("message", .str ("Message added to ticket " ++ ticket_id))])
    else if toolName = "search_tickets" then
      if !truthy i.query && !truthy i.user_id then
        "Error: Either query or user_id is required for search_tickets"
      else
        let results :=
          if truthy i.user_id then crm.getUserTickets (i.user_id.getD "")
          else crm.dataTickets
        let results :=
          if truthy i.query then
            let q := strToLower (i.query.getD "")
            results.filter
              (fun t =>
                strIncludes (strToLower t.title) q ||
                  strIncludes (strToLower t.description) q)
          else results
        env.stringify (.obj [("success", .bool true),
          ("count", .num results.length),
          ("tickets", .arr (results.map ticketToJx))])
    else if toolName = "list_tasks" then
      match env.tasks with
      | none => "Error: Tasks service not initialized"
      | some tasks =>
          let filters : TaskFilters :=
            { priority := if truthy i.priority then i.priority else none,
              status := if truthy i.status then i.status else none,
              assignee := if truthy i.assignee then i.assignee else none }
          let ts := tasks.getTasks filters
          env.stringify (.obj [("success", .bool true),
            ("count", .num ts.length), ("tasks", .arr (ts.map taskToJx))])
    else if toolName = "get_task" then
      match env.tasks with
      | none => "Error: Tasks service not initialized"
      | some tasks =>
          if !truthy i.task_id then "Error: task_id is required for get_task"
          else
            let task_id := i.task_id.getD ""
            match tasks.getTask task_id with
            | none => "Error: Task " ++ task_id ++ " not found"
            | some task =>
                env.stringify (.obj [("success", .bool true),
                  ("task", taskToJx task)])
    else if toolName = "create_task" then
      match env.tasks with
      | none => "Error: Tasks service not initialized"
      | some tasks =>
          if !truthy i.title || !truthy i.description || !truthy i.assignee then
            "Error: title, description, and assignee are required for create_task"
          else
            let taskId := "task_" ++ toString env.nowMs
            let newTask : TaskRec :=
              { id := taskId, title := i.title.getD "",
                description := i.description.getD "",
                priority :=
                  if truthy i.priority then i.priority.getD "" else "medium",
                status := "open", assignee := i.assignee.getD "",
                created_at := env.nowIso, updated_at := env.nowIso,
                depends_on := i.depends_on.getD [] }
            let _ := tasks.createTask newTask
            env.stringify (.obj [("success", .bool true),
              ("task_id", .str taskId),
              ("message", .str "Task created successfully"),
              ("task", taskToJx newTask)])
    else if toolName = "update_task" then
      match env.tasks with
      | none => "Error: Tasks service not initialized"
      | some tasks =>
          if !truthy i.task_id then "Error: task_id is required for update_task"
          else
            let task_id := i.task_id.getD ""
            match tasks.getTask task_id with
            | none => "Error: Task " ++ task_id ++ " not found"
            | some _ =>
                let updates : TaskUpdates :=
                  { status := if truthy i.status then i.status else none,
                    priority := if truthy i.priority then i.priority else none,
                    assignee :=
                      if truthy i.assignee then i.assignee else none }
                let _ := tasks.updateTask task_id updates
                let updatedTask := tasks.getTask task_id
                env.stringify (.obj [("success", .bool true),
                  ("message",
                   .str ("Task " ++ task_id ++ " updated successfully")),
                  ("task",
                   match updatedTask with
                   | some t => taskToJx t
                   | none => .null)])
    else "Unknown tool: " ++ toolName

/-! ## Proof-side descriptions of the RRF fusion state -/

/-- The `rrfScores` entries after one pass over a duplicate-free list
starting from the empty map: one entry per chunk, in list order, scored
`1/(60 + rank + 1)`. -/
def rrfKwEntries (rank : ℕ) : List TextChunk → List (String × ℚ)
  | [] => []
  | c :: rest => (c.id, 1 / (60 + (rank : ℚ) + 1)) :: rrfKwEntries (rank + 1) rest

/-- The `chunkMap` entries after a pass over a list of chunks. -/
def rrfChunkMapOf : List TextChunk → List (String × TextChunk)
  | [] => []
  | c :: rest => (c.id, c) :: rrfChunkMapOf rest

/-- The `rrfScores` entries after both (identical) passes: each chunk's
rank contribution counted twice. -/
def rrfDoubledEntries (rank : ℕ) : List TextChunk → List (String × ℚ)
  | [] => []
  | c :: rest =>
      (c.id, 1 / (60 + (rank : ℚ) + 1) + 1 / (60 + (rank : ℚ) + 1)) ::
        rrfDoubledEntries (rank + 1) rest

/-- The pre-sort fused candidate list paired with its chunks. -/
def rrfDoubledPairs (rank : ℕ) : List TextChunk → List (TextChunk × ℚ)
  | [] => []
  | c :: rest =>
      (c, 1 / (60 + (rank : ℚ) + 1) + 1 / (60 + (rank : ℚ) + 1)) ::
        rrfDoubledPairs (rank + 1) rest

/-- The fused results the source actually produces on the hybrid path
for a duplicate-free keyword list: the keyword candidates in keyword
order, with fused score `2/(61 + rank)` normalized by `62`. -/
def rrfExpected (rank : ℕ) : List TextChunk → List SearchResult
  | [] => []
  | c :: rest =>
      ⟨c.content, c.metadata.source,
        (1 / (60 + (rank : ℚ) + 1) + 1 / (60 + (rank : ℚ) + 1)) / (60 + 2),
        c.metadata⟩ :: rrfExpected (rank + 1) rest

/-- The fused score exactly as claim C2 words it: `Σ 1/(60 + rank)` over
the 0-based ranks at which a chunk appears. -/
def rrfScoreClaim (ranks : List ℕ) : ℚ :=
  (ranks.map (fun r => 1 / (60 + (r : ℚ)))).sum

/-! ## Concrete scenario data -/

/-- A chunk whose content matches the query `"hello"` five times. -/
def exampleChunkA : TextChunk :=
  ⟨"c1", "hello hello hello hello hello", some [1, 0], ⟨"alpha.md", 0, 1⟩⟩

/-- A chunk whose content matches the query `"hello"` once, with an
embedding orthogonal to `exampleChunkA`'s. -/
def exampleChunkB : TextChunk :=
  ⟨"c2", "hello", some [0, 1], ⟨"beta.md", 0, 1⟩⟩

/-- A two-chunk pipeline state with embeddings present and configured. -/
def exampleHybridState : RagState :=
  ⟨[exampleChunkA, exampleChunkB], true⟩

/-- A one-chunk pipeline state with embeddings present and configured. -/
def exampleSingleState : RagState :=
  ⟨[exampleChunkA], true⟩

/-- A query embedding aligned with `exampleChunkB`'s stored embedding. -/
noncomputable def exampleQueryEmbedding : List ℝ := [0, 1]

/-- A 1000-word file content: `"word"` repeated 1000 times, single spaces. -/
def content1000 : String :=
  String.mk (List.intercalate [' '] (List.replicate 1000 ['w', 'o', 'r', 'd']))

/-- A concrete executor environment: CRM initialized but empty, Tasks
uninitialized, git calls failing with `"boom"`, trivial serializer. -/
def witnessEnv : ToolEnv :=
  { crm := some
      { getUser := fun _ => none
        getUserTickets := fun _ => []
        getTicket := fun _ => none
        dataTickets := []
        createTicket := fun _ => ()
        updateTicket := fun _ _ => ()
        addTicketMessage := fun _ _ => () }
    tasks := none
    gitBranch := .error "boom"
    gitStatus := .ok ""
    stringify := fun _ => ""
    nowMs := 0
    nowIso := "" }

/-! # Theorems -/

/-! ## Keyword scoring (claim C3) -/

/-- The score/matched-count accumulator of `_calculateSimilarity` computes
the sum of per-token contributions and the count of matched tokens. -/
theorem foldl_simStep (freq : List (String × ℕ)) :
    ∀ (Q : List String) (a : ℚ) (n : ℕ),
      Q.foldl (simStep freq) (a, n) =
        (a + (Q.map (tokenContribution freq)).sum,
         n + Q.countP (tokenMatched freq))
  | [], a, n => by simp
  | q :: Q, a, n => by
      rw [List.foldl_cons]
      simp only [List.map_cons, List.sum_cons, List.countP_cons]
      cases h : mapGet freq q with
      | some f =>
          rw [show simStep freq (a, n) q
                = (a + 3 * ((min f 5 : ℕ) / 5 : ℚ), n + 1) by
              simp [simStep, h]]
          rw [foldl_simStep freq Q]
          simp [tokenContribution, tokenMatched, h]
          constructor
          · ring
          · omega
      | none =>
          cases h2 : stemScan q freq with
          | some p =>
              rw [show simStep freq (a, n) q
                    = (a + ((p.1 : ℚ) / (q.length : ℚ)) * (3 / 2)
                        * ((min p.2 5 : ℕ) / 5 : ℚ), n + 1) by
                  simp [simStep, h, h2]]
              rw [foldl_simStep freq Q]
              simp [tokenContribution, tokenMatched, h, h2]
              constructor
              · ring
              · omega
          | none =>
              rw [show simStep freq (a, n) q = (a, n) by simp [simStep, h, h2]]
              rw [foldl_simStep freq Q]
              simp [tokenContribution, tokenMatched, h, h2]

/-- C3 (confirmed): for every query-token list `Q` and chunk-token list
`C`, the keyword score adds `3·min(freq,5)/5` per exactly matched query
token and `1.5·(sharedLen/|q|)·min(freq,5)/5` at the first chunk token
sharing a stem of length `≥ 4` with an unmatched query token; the final
per-chunk score is `max(min(raw/(2|Q|), 1), (matched/|Q|)·0.7)` when at
least one query token matched, and a chunk with no match at all receives
the tie-break score `min(|C|/1000, 0.1)`. -/
theorem keyword_score_formula (Q C : List String) :
    chunkKeywordScore Q C =
      if 0 < matchedCount Q C then
        max (min (rawScore Q C / (2 * (Q.length : ℚ))) 1)
          ((matchedCount Q C : ℚ) / (Q.length : ℚ) * (7 / 10))
      else min ((C.length : ℚ) / 1000) (1 / 10) := by
  unfold chunkKeywordScore calculateSimilarity
  rcases eq_or_ne Q [] with hQ | hQ
  · subst hQ
    simp [matchedCount, rawScore]
  rcases eq_or_ne C [] with hC | hC
  · subst hC
    have hfreq : buildFreq ([] : List String) = [] := rfl
    have hm : matchedCount Q [] = 0 := by
      simp [matchedCount, hfreq, tokenMatched, mapGet, stemScan]
    simp [hQ, hm]
  · have hcond : ¬(Q = [] ∨ C = []) := by tauto
    dsimp only
    rw [if_neg hcond, foldl_simStep]
    dsimp only
    simp only [zero_add, Nat.zero_add]
    have hQpos : (0 : ℚ) < (Q.length : ℚ) := by
      have : 0 < Q.length := List.length_pos.mpr hQ
      exact_mod_cast this
    rcases Nat.eq_zero_or_pos (matchedCount Q C) with hm | hm
    · rw [if_neg (by omega : ¬0 < matchedCount Q C)]
      have hcount : Q.countP (tokenMatched (buildFreq C)) = 0 := hm
      have hif : ¬(0 < (Q.countP (tokenMatched (buildFreq C)) : ℚ)
          / (Q.length : ℚ)) := by
        rw [hcount]
        simp
      rw [if_neg hif]
      simp
    · rw [if_pos hm]
      have hratio : (0 : ℚ) <
          (Q.countP (tokenMatched (buildFreq C)) : ℚ) / (Q.length : ℚ) := by
        apply div_pos _ hQpos
        have : 0 < Q.countP (tokenMatched (buildFreq C)) := hm
        exact_mod_cast this
      rw [if_pos hratio]
      have hpos : (0 : ℚ) <
          max (min ((Q.map (tokenContribution (buildFreq C))).sum
              / (2 * (Q.length : ℚ))) 1)
            ((Q.countP (tokenMatched (buildFreq C)) : ℚ) / (Q.length : ℚ)
              * (7 / 10)) := by
        calc (0 : ℚ)
            < (Q.countP (tokenMatched (buildFreq C)) : ℚ) / (Q.length : ℚ)
                * (7 / 10) := by positivity
          _ ≤ _ := le_max_right _ _
      rw [if_neg (by exact ne_of_gt hpos)]
      rfl

/-! ## Association-list and stable-sort lemmas -/

theorem mapGet_append {α : Type} (m1 m2 : List (String × α)) (k : String) :
    mapGet (m1 ++ m2) k =
      match mapGet m1 k with
      | some v => some v
      | none => mapGet m2 k := by
  induction m1 with
  | nil => simp [mapGet]
  | cons p rest ih =>
      obtain ⟨k', v'⟩ := p
      by_cases h : k' = k
      · simp [mapGet, h]
      · simpa [mapGet, h] using ih

theorem mapSet_fresh {α : Type} (m : List (String × α)) (k : String) (v : α)
    (h : mapGet m k = none) : mapSet m k v = m ++ [(k, v)] := by
  induction m with
  | nil => simp [mapSet]
  | cons p rest ih =>
      obtain ⟨k', v'⟩ := p
      by_cases hk : k' = k
      · simp [mapGet, hk] at h
      · simp only [mapSet, if_neg hk, List.cons_append, List.cons.injEq,
          true_and]
        exact ih (by simpa [mapGet, hk] using h)

theorem mapSet_id {α : Type} (m : List (String × α)) (k : String) (v : α)
    (h : mapGet m k = some v) : mapSet m k v = m := by
  induction m with
  | nil => simp [mapGet] at h
  | cons p rest ih =>
      obtain ⟨k', v'⟩ := p
      by_cases hk : k' = k
      · have : v' = v := by simpa [mapGet, hk] using h
        simp [mapSet, hk, this]
      · simp only [mapSet, if_neg hk, List.cons.injEq, true_and]
        exact ih (by simpa [mapGet, hk] using h)

theorem mapSet_mid {α : Type} (A t : List (String × α)) (k : String)
    (w v : α) (h : mapGet A k = none) :
    mapSet (A ++ (k, w) :: t) k v = A ++ (k, v) :: t := by
  induction A with
  | nil => simp [mapSet]
  | cons p rest ih =>
      obtain ⟨k', v'⟩ := p
      by_cases hk : k' = k
      · simp [mapGet, hk] at h
      · simp only [List.cons_append, mapSet, if_neg hk, List.cons.injEq,
          true_and]
        exact ih (by simpa [mapGet, hk] using h)

theorem insertDesc_perm {α β : Type} [LinearOrder β] (f : α → β) (x : α) :
    ∀ l : List α, (insertDesc f x l).Perm (x :: l)
  | [] => List.Perm.refl _
  | y :: ys => by
      simp only [insertDesc]
      split
      · exact List.Perm.refl _
      · exact ((insertDesc_perm f x ys).cons y).trans (List.Perm.swap x y ys)

theorem sortDesc_perm {α β : Type} [LinearOrder β] (f : α → β) :
    ∀ l : List α, (sortDesc f l).Perm l
  | [] => List.Perm.refl _
  | x :: xs =>
      (insertDesc_perm f x (sortDesc f xs)).trans ((sortDesc_perm f xs).cons x)

/-- A list already weakly descending in `f` is left unchanged by the
stable sort. -/
theorem sortDesc_of_chain {α β : Type} [LinearOrder β] (f : α → β) :
    ∀ l : List α, List.Chain' (fun a b => f b ≤ f a) l → sortDesc f l = l
  | [] => fun _ => rfl
  | [x] => fun _ => rfl
  | x :: y :: ys => fun h => by
      have h1 : f y ≤ f x := (List.chain'_cons.mp h).1
      have h2 := (List.chain'_cons.mp h).2
      show insertDesc f x (sortDesc f (y :: ys)) = _
      rw [sortDesc_of_chain f (y :: ys) h2]
      simp only [insertDesc, if_pos h1]

/-! ## RRF accumulation lemmas -/

theorem rrfChunkMapOf_get :
    ∀ (L : List TextChunk), (L.map (fun c => c.id)).Nodup →
      ∀ c ∈ L, mapGet (rrfChunkMapOf L) c.id = some c
  | [], _, c, hc => by simp at hc
  | a :: rest, hnd, c, hc => by
      rcases List.mem_cons.mp hc with rfl | hc'
      · simp [rrfChunkMapOf, mapGet]
      · have hndc : (∀ x ∈ rest, ¬x.id = a.id) ∧
            (rest.map (fun c => c.id)).Nodup := by simpa using hnd
        have hne : a.id ≠ c.id := fun heq => hndc.1 c hc' heq.symm
        simp only [rrfChunkMapOf, mapGet, if_neg hne]
        exact rrfChunkMapOf_get rest hndc.2 c hc'

theorem rrfPassGo_fresh :
    ∀ (L : List TextChunk) (rank : ℕ) (es : List (String × ℚ))
      (cm : List (String × TextChunk)),
      (∀ c ∈ L, mapGet es c.id = none) →
      (∀ c ∈ L, mapGet cm c.id = none) →
      (L.map (fun c => c.id)).Nodup →
      rrfPassGo rank L (es, cm) =
        (es ++ rrfKwEntries rank L, cm ++ rrfChunkMapOf L)
  | [], rank, es, cm => fun _ _ _ => by
      simp [rrfPassGo, rrfKwEntries, rrfChunkMapOf]
  | c :: rest, rank, es, cm => fun hes hcm hnd => by
      have hesc : mapGet es c.id = none := hes c (by simp)
      have hcmc : mapGet cm c.id = none := hcm c (by simp)
      have hndc : (∀ x ∈ rest, ¬x.id = c.id) ∧
          (rest.map (fun c => c.id)).Nodup := by simpa using hnd
      simp only [rrfPassGo, hesc, Option.getD_none, zero_add]
      rw [mapSet_fresh es _ _ hesc, mapSet_fresh cm _ _ hcmc]
      rw [rrfPassGo_fresh rest (rank + 1) _ _
            (fun c' hc' => by
              rw [mapGet_append, hes c' (by simp [hc'])]
              have hne : c.id ≠ c'.id := fun heq => hndc.1 c' hc' heq.symm
              simp [mapGet, hne])
            (fun c' hc' => by
              rw [mapGet_append, hcm c' (by simp [hc'])]
              have hne : c.id ≠ c'.id := fun heq => hndc.1 c' hc' heq.symm
              simp [mapGet, hne])
            hndc.2]
      simp [rrfKwEntries, rrfChunkMapOf]

theorem rrfPassGo_double :
    ∀ (L : List TextChunk) (rank : ℕ) (A : List (String × ℚ))
      (CM : List (String × TextChunk)),
      (∀ c ∈ L, mapGet A c.id = none) →
      (∀ c ∈ L, mapGet CM c.id = some c) →
      (L.map (fun c => c.id)).Nodup →
      rrfPassGo rank L (A ++ rrfKwEntries rank L, CM) =
        (A ++ rrfDoubledEntries rank L, CM)
  | [], rank, A, CM => fun _ _ _ => by
      simp [rrfPassGo, rrfKwEntries, rrfDoubledEntries]
  | c :: rest, rank, A, CM => fun hA hCM hnd => by
      have hAc : mapGet A c.id = none := hA c (by simp)
      have hndc : (∀ x ∈ rest, ¬x.id = c.id) ∧
          (rest.map (fun c => c.id)).Nodup := by simpa using hnd
      have hfresh : ∀ c' ∈ rest,
          mapGet (A ++ [(c.id, 1 / (60 + (rank : ℚ) + 1)
              + 1 / (60 + (rank : ℚ) + 1))]) c'.id = none := by
        intro c' hc'
        rw [mapGet_append, hA c' (by simp [hc'])]
        have hne : c.id ≠ c'.id := fun heq => hndc.1 c' hc' heq.symm
        simp [mapGet, hne]
      have hget : mapGet (A ++ (c.id, 1 / (60 + (rank : ℚ) + 1)) ::
            rrfKwEntries (rank + 1) rest) c.id
          = some (1 / (60 + (rank : ℚ) + 1)) := by
        rw [mapGet_append, hAc]
        simp [mapGet]
      have hkw : rrfKwEntries rank (c :: rest)
          = (c.id, 1 / (60 + (rank : ℚ) + 1)) :: rrfKwEntries (rank + 1) rest :=
        rfl
      rw [hkw]
      simp only [rrfPassGo, hget, Option.getD_some]
      rw [mapSet_mid A _ c.id _ _ hAc, mapSet_id CM c.id c (hCM c (by simp))]
      rw [show A ++ (c.id, 1 / (60 + (rank : ℚ) + 1)
              + 1 / (60 + (rank : ℚ) + 1)) :: rrfKwEntries (rank + 1) rest
          = (A ++ [(c.id, 1 / (60 + (rank : ℚ) + 1)
              + 1 / (60 + (rank : ℚ) + 1))]) ++ rrfKwEntries (rank + 1) rest
          by simp]
      rw [rrfPassGo_double rest (rank + 1) _ CM hfresh
            (fun c' hc' => hCM c' (by simp [hc'])) hndc.2]
      simp [rrfDoubledEntries]

theorem rrfDoubled_mapped (CM : List (String × TextChunk)) :
    ∀ (L : List TextChunk) (rank : ℕ),
      (∀ c ∈ L, mapGet CM c.id = some c) →
      (rrfDoubledEntries rank L).map
          (fun e => ((mapGet CM e.1).getD default, e.2)) =
        rrfDoubledPairs rank L
  | [], _, _ => rfl
  | c :: rest, rank, hCM => by
      simp only [rrfDoubledEntries, rrfDoubledPairs, List.map_cons,
        hCM c (by simp), Option.getD_some, List.cons.injEq, true_and]
      exact rrfDoubled_mapped CM rest (rank + 1)
        (fun c' hc' => hCM c' (by simp [hc']))

theorem rrfDoubledPairs_chain :
    ∀ (L : List TextChunk) (rank : ℕ),
      List.Chain' (fun a b : TextChunk × ℚ => b.2 ≤ a.2)
        (rrfDoubledPairs rank L)
  | [], _ => by simp [rrfDoubledPairs]
  | [c], _ => by simp [rrfDoubledPairs]
  | c :: c' :: rest, rank => by
      have htail := rrfDoubledPairs_chain (c' :: rest) (rank + 1)
      have hle : 1 / (60 + ((rank + 1 : ℕ) : ℚ) + 1)
            + 1 / (60 + ((rank + 1 : ℕ) : ℚ) + 1)
          ≤ 1 / (60 + (rank : ℚ) + 1) + 1 / (60 + (rank : ℚ) + 1) := by
        have h1 : (0 : ℚ) < 60 + (rank : ℚ) + 1 := by positivity
        have h2 : 60 + (rank : ℚ) + 1 ≤ 60 + ((rank + 1 : ℕ) : ℚ) + 1 := by
          push_cast
          linarith
        have := one_div_le_one_div_of_le h1 h2
        linarith
      rw [show rrfDoubledPairs rank (c :: c' :: rest)
          = (c, 1 / (60 + (rank : ℚ) + 1) + 1 / (60 + (rank : ℚ) + 1)) ::
              rrfDoubledPairs (rank + 1) (c' :: rest) from rfl]
      rw [show rrfDoubledPairs (rank + 1) (c' :: rest)
          = (c', 1 / (60 + ((rank + 1 : ℕ) : ℚ) + 1)
              + 1 / (60 + ((rank + 1 : ℕ) : ℚ) + 1)) ::
              rrfDoubledPairs (rank + 1 + 1) rest from rfl] at htail ⊢
      exact List.chain'_cons.mpr ⟨hle, htail⟩

theorem rrfDoubledPairs_take :
    ∀ (L : List TextChunk) (rank m : ℕ),
      ((rrfDoubledPairs rank L).take m).map
          (fun p => SearchResult.mk p.1.content p.1.metadata.source
            (p.2 / (60 + 2)) p.1.metadata) =
        rrfExpected rank (L.take m)
  | [], rank, m => by simp [rrfDoubledPairs, rrfExpected]
  | c :: rest, rank, 0 => by simp [rrfDoubledPairs, rrfExpected]
  | c :: rest, rank, m + 1 => by
      simp only [rrfDoubledPairs, rrfExpected, List.take_succ_cons,
        List.map_cons, List.cons.injEq, true_and]
      exact rrfDoubledPairs_take rest (rank + 1) m

/-! ## Hybrid-search characterization (claims C1 and C2, amended) -/

/-- C1 (amended): on the hybrid path (`isSemanticSearchAvailable`), the
"semantic" candidate list fused by `search` is not an independent
cosine ranking — it is the keyword candidate list itself (truncated to
`2 × maxResults`), fused with itself by RRF. -/
theorem search_fuses_keyword_list_with_itself (st : RagState) (query : String)
    (maxResults : ℕ) (hsem : isSemanticSearchAvailable st = true) :
    search st query maxResults =
      rrfFuse
        (((sortDesc (fun p => p.2)
            (scoredChunks st.chunks (tokenize query))).take
              (maxResults * 2)).map Prod.fst)
        (((sortDesc (fun p => p.2)
            (scoredChunks st.chunks (tokenize query))).take
              (maxResults * 2)).map Prod.fst)
        maxResults := by
  have hemb : hasEmbeddings st = true := by
    have := hsem
    simp only [isSemanticSearchAvailable, Bool.and_eq_true] at this
    exact this.1
  rw [search, if_pos hsem]
  rw [hybridRRFSearch]
  simp only [hemb, if_pos]

/-- Witness for `search_fuses_keyword_list_with_itself`. -/
theorem search_fuses_keyword_list_with_itself_witness :
    isSemanticSearchAvailable exampleHybridState = true ∧
      search exampleHybridState "hello" 1 =
        rrfFuse
          (((sortDesc (fun p => p.2)
              (scoredChunks exampleHybridState.chunks (tokenize "hello"))).take
                (1 * 2)).map Prod.fst)
          (((sortDesc (fun p => p.2)
              (scoredChunks exampleHybridState.chunks (tokenize "hello"))).take
                (1 * 2)).map Prod.fst)
          1 :=
  ⟨by decide,
   search_fuses_keyword_list_with_itself exampleHybridState "hello" 1
     (by decide)⟩

/-- C2 (amended): in hybrid search with embeddings present and
duplicate-free chunk ids, the fused score of a chunk is the sum over the
two (identical) ranked lists of `1/(60 + rank + 1)` with `rank` the
0-based position — i.e. `1/(61 + rank)`, not `1/(60 + rank)`; the
combined scores are sorted descending, the top `maxResults` are returned,
and each similarity is the fused score divided by `62`. -/
theorem search_hybrid_rrf_scores (st : RagState) (query : String) (m : ℕ)
    (hsem : isSemanticSearchAvailable st = true)
    (hids : (st.chunks.map (fun c => c.id)).Nodup) :
    search st query m =
      rrfExpected 0
        ((((sortDesc (fun p => p.2)
            (scoredChunks st.chunks (tokenize query))).take (m * 2)).map
              Prod.fst).take m) := by
  have hperm :
      ((sortDesc (fun p : TextChunk × ℚ => p.2)
            (scoredChunks st.chunks (tokenize query))).map
          (fun p => p.1.id)).Perm
        (st.chunks.map (fun c => c.id)) := by
    have hp := (sortDesc_perm (fun p : TextChunk × ℚ => p.2)
      (scoredChunks st.chunks (tokenize query))).map
        (fun p : TextChunk × ℚ => p.1.id)
    simpa [scoredChunks, List.map_map, Function.comp] using hp
  have hsortednd :
      ((sortDesc (fun p : TextChunk × ℚ => p.2)
          (scoredChunks st.chunks (tokenize query))).map
        (fun p => p.1.id)).Nodup := hperm.nodup_iff.mpr hids
  have hKnd :
      ((((sortDesc (fun p : TextChunk × ℚ => p.2)
            (scoredChunks st.chunks (tokenize query))).take (m * 2)).map
          Prod.fst).map (fun c => c.id)).Nodup := by
    have heq :
        (((sortDesc (fun p : TextChunk × ℚ => p.2)
              (scoredChunks st.chunks (tokenize query))).take (m * 2)).map
            Prod.fst).map (fun c => c.id)
          = ((sortDesc (fun p : TextChunk × ℚ => p.2)
              (scoredChunks st.chunks (tokenize query))).map
            (fun p => p.1.id)).take (m * 2) := by
      rw [List.map_map, ← List.map_take]
      rfl
    rw [heq]
    exact List.Nodup.sublist (List.take_sublist _ _) hsortednd
  have hemb : hasEmbeddings st = true := by
    have := hsem
    simp only [isSemanticSearchAvailable, Bool.and_eq_true] at this
    exact this.1
  rw [search, if_pos hsem, hybridRRFSearch]
  simp only [hemb, if_pos]
  rw [rrfFuse]
  rw [rrfPassGo_fresh _ 0 [] [] (fun _ _ => rfl) (fun _ _ => rfl) hKnd]
  simp only [List.nil_append]
  rw [show (rrfKwEntries 0 (((sortDesc (fun p : TextChunk × ℚ => p.2)
        (scoredChunks st.chunks (tokenize query))).take (m * 2)).map Prod.fst))
      = [] ++ rrfKwEntries 0 (((sortDesc (fun p : TextChunk × ℚ => p.2)
        (scoredChunks st.chunks (tokenize query))).take (m * 2)).map Prod.fst)
      from (List.nil_append _).symm]
  rw [rrfPassGo_double _ 0 [] _ (fun _ _ => rfl)
        (rrfChunkMapOf_get _ hKnd) hKnd]
  simp only [List.nil_append]
  rw [rrfDoubled_mapped _ _ 0 (rrfChunkMapOf_get _ hKnd)]
  rw [sortDesc_of_chain _ _ (rrfDoubledPairs_chain _ 0)]
  rw [rrfDoubledPairs_take]

/-- Witness for `search_hybrid_rrf_scores`. -/
theorem search_hybrid_rrf_scores_witness :
    isSemanticSearchAvailable exampleHybridState = true ∧
      ((exampleHybridState.chunks.map (fun c => c.id)).Nodup ∧
        search exampleHybridState "hello" 1 =
          rrfExpected 0
            ((((sortDesc (fun p => p.2)
                (scoredChunks exampleHybridState.chunks
                  (tokenize "hello"))).take (1 * 2)).map Prod.fst).take 1)) :=
  ⟨by decide, by decide,
   search_hybrid_rrf_scores exampleHybridState "hello" 1 (by decide)
     (by decide)⟩

/-- Counterexample to C2 as stated: on a one-chunk state the source's
fused score is `1/61 + 1/61` (rank contribution `1/(60 + rank + 1)`),
not the claimed `1/60 + 1/60` (`1/(60 + rank)` with 0-based rank): the
returned similarity is `(1/61 + 1/61)/62`, which differs from the
claim's `(1/60 + 1/60)/62`. -/
theorem search_rrf_offset_counterexample :
    (search exampleSingleState "hello" 1).map (fun r => r.similarity)
        = [((1 : ℚ) / 61 + 1 / 61) / 62] ∧
      rrfScoreClaim [0, 0] / (60 + 2) = ((1 : ℚ) / 60 + 1 / 60) / 62 ∧
      ((1 : ℚ) / 61 + 1 / 61) / 62 ≠ ((1 : ℚ) / 60 + 1 / 60) / 62 := by
  have hsem : isSemanticSearchAvailable exampleSingleState = true := by decide
  have hemb : hasEmbeddings exampleSingleState = true := by decide
  have htokA : tokenize "hello hello hello hello hello"
      = ["hello", "hello", "hello", "hello", "hello"] := by decide
  have htok : tokenize "hello" = ["hello"] := by decide
  have hscore : chunkKeywordScore ["hello"]
      ["hello", "hello", "hello", "hello", "hello"] = 1 := by
    norm_num [chunkKeywordScore, calculateSimilarity, buildFreq, simStep,
      mapGet, mapSet, stemScan, List.cons_ne_nil]
  refine ⟨?_, ?_, ?_⟩
  · rw [search, if_pos hsem, hybridRRFSearch]
    simp only [hemb, if_pos, exampleSingleState, exampleChunkA, scoredChunks,
      List.map_cons, List.map_nil, htok, htokA, hscore]
    simp only [sortDesc, insertDesc, List.take, rrfFuse, rrfPassGo, mapGet,
      mapSet, Option.getD_none, Option.getD_some, List.map_cons, List.map_nil]
    norm_num
  · simp only [rrfScoreClaim, List.map_cons, List.map_nil, List.sum_cons,
      List.sum_nil, Nat.cast_ofNat, Nat.cast_zero]
    norm_num
  · intro h
    have h61 : ((1 : ℚ) / 61 + 1 / 61) / 62 = 1 / 1891 := by norm_num
    have h60 : ((1 : ℚ) / 60 + 1 / 60) / 62 = 1 / 1860 := by norm_num
    rw [h61, h60] at h
    norm_num at h

/-- Counterexample to C1 as stated: on a concrete two-chunk state whose
embeddings rank the chunks opposite to the keyword ranking, `search` does
not fuse an independent cosine-based semantic ranking — its result
differs from the claim's `hybridSearchClaim` (the top result's fused
score is `1/61 + 1/61`, double-counting the keyword rank, instead of the
claimed `1/61 + 1/62`). -/
theorem search_semantic_ranking_counterexample :
    search exampleHybridState "hello" 1
      ≠ hybridSearchClaim exampleQueryEmbedding exampleHybridState "hello" 1 := by
  have hsem : isSemanticSearchAvailable exampleHybridState = true := by decide
  have hemb : hasEmbeddings exampleHybridState = true := by decide
  have hne : (("c1" : String) = "c2") = False := by simp
  have htokA : tokenize "hello hello hello hello hello"
      = ["hello", "hello", "hello", "hello", "hello"] := by decide
  have htokB : tokenize "hello" = ["hello"] := by decide
  have hscoreA : chunkKeywordScore ["hello"]
      ["hello", "hello", "hello", "hello", "hello"] = 1 := by
    norm_num [chunkKeywordScore, calculateSimilarity, buildFreq, simStep,
      mapGet, mapSet, stemScan, List.cons_ne_nil]
  have hscoreB : chunkKeywordScore ["hello"] ["hello"] = 7 / 10 := by
    norm_num [chunkKeywordScore, calculateSimilarity, buildFreq, simStep,
      mapGet, mapSet, stemScan, List.cons_ne_nil]
  have hlhs : search exampleHybridState "hello" 1
      = [⟨"hello hello hello hello hello", "alpha.md",
          ((1 : ℚ) / 61 + 1 / 61) / 62, ⟨"alpha.md", 0, 1⟩⟩] := by
    rw [search, if_pos hsem, hybridRRFSearch]
    norm_num [hemb, hne, scoredChunks, exampleHybridState, exampleChunkA,
      exampleChunkB, htokA, htokB, hscoreA, hscoreB, sortDesc, insertDesc,
      rrfFuse, rrfPassGo, mapGet, mapSet]
  have hcosA : cosineValue exampleQueryEmbedding [(1 : ℝ), 0] = 0 := by
    norm_num [cosineValue, normList, dotList, Real.sqrt_one,
      exampleQueryEmbedding]
  have hcosB : cosineValue exampleQueryEmbedding [(0 : ℝ), 1] = 1 := by
    norm_num [cosineValue, normList, dotList, Real.sqrt_one,
      exampleQueryEmbedding]
  have hsemrank : semanticRankingClaim exampleQueryEmbedding
      exampleHybridState.chunks 1 = [exampleChunkB, exampleChunkA] := by
    unfold semanticRankingClaim
    norm_num [exampleHybridState, exampleChunkA, exampleChunkB, hcosA, hcosB,
      sortDesc, insertDesc]
  have hrhs : hybridSearchClaim exampleQueryEmbedding exampleHybridState
      "hello" 1
      = [⟨"hello hello hello hello hello", "alpha.md",
          ((1 : ℚ) / 61 + 1 / 62) / 62, ⟨"alpha.md", 0, 1⟩⟩] := by
    rw [hybridSearchClaim]
    rw [hsemrank]
    norm_num [hne, scoredChunks, exampleHybridState, exampleChunkA,
      exampleChunkB, htokA, htokB, hscoreA, hscoreB, sortDesc, insertDesc,
      rrfFuse, rrfPassGo, mapGet, mapSet]
  intro h
  rw [hlhs, hrhs] at h
  norm_num [SearchResult.mk.injEq] at h

/-! ## Chunk windows on a 1000-word file (claim C6) -/

/-- Counterexample to C6 as stated: one 1000-word file with
`chunkSize = 400`, `chunkOverlap = 100` produces 4 chunks, not 3 — the
window loop also runs at word offset 900 (`900 < 1000`), emitting a
100-word tail chunk. -/
theorem chunk_count_1000_words_counterexample :
    (createChunks 400 100 [("file.md", content1000)]).length = 4 ∧
      (createChunks 400 100 [("file.md", content1000)]).length ≠ 3 := by
  have h : (createChunks 400 100 [("file.md", content1000)]).length = 4 := by
    set_option maxRecDepth 100000 in decide
  exact ⟨h, by rw [h]; decide⟩

/-- C6 (amended): indexing one 1000-word file with `chunkSize = 400` and
`chunkOverlap = 100` produces exactly 4 chunks, at word offsets 0, 300,
600 and 900 (the last a 100-word tail), with `chunkIndex` 0..3 and every
`metadata.totalChunks = 4`; windows advance by
`chunkSize - chunkOverlap = 300` words per step. -/
theorem chunk_windows_1000_words :
    (splitWsJs content1000).length = 1000 ∧
      chunkStarts (splitWsJs content1000).length (400 - 100)
        = [0, 300, 600, 900] ∧
      (createChunks 400 100 [("file.md", content1000)]).map
          (fun c => c.metadata.chunkIndex) = [0, 1, 2, 3] ∧
      ∀ c ∈ createChunks 400 100 [("file.md", content1000)],
        c.metadata.totalChunks = 4 := by
  refine ⟨?_, ?_, ?_, ?_⟩
  · set_option maxRecDepth 100000 in decide
  · set_option maxRecDepth 100000 in decide
  · set_option maxRecDepth 100000 in decide
  · set_option maxRecDepth 100000 in decide

/-! ## Size-string parsing (claim C8) -/

/-- Counterexample to C8 as stated: the malformed size string `"abc"`
does not fail indexing — `_parseSize` silently returns the default
`1048576` bytes (1 MB). -/
theorem parse_size_malformed_counterexample :
    parseSizeMatch "abc" = none ∧ parseSize "abc" = 1048576 := by
  exact ⟨by decide, by decide⟩

/-- C8 (amended): a max-file-size string that does not match
`^(\d+)([A-Z]+)$` makes `_parseSize` proceed with the default 1 MB
(`1024 * 1024` bytes) instead of failing fast; a matching string uses the
B/KB/MB/GB table, and an unknown unit falls back to multiplier 1. -/
theorem parse_size_default_on_malformed :
    (∀ s : String, parseSizeMatch s = none → parseSize s = 1024 * 1024) ∧
      parseSize "2KB" = 2048 ∧ parseSize "7TB" = 7 := by
  refine ⟨fun s h => ?_, by decide, by decide⟩
  simp [parseSize, h]

/-- Witness for `parse_size_default_on_malformed`. -/
theorem parse_size_default_on_malformed_witness :
    parseSizeMatch "10kb" = none ∧ parseSize "10kb" = 1024 * 1024 :=
  ⟨by decide, parse_size_default_on_malformed.1 "10kb" (by decide)⟩

/-! ## Embedding generation under provider failure (claim C7) -/

theorem mapWithIdx_length {α β : Type} (f : ℕ → α → β) :
    ∀ (l : List α) (start : ℕ), (mapWithIdx f start l).length = l.length
  | [], _ => rfl
  | _ :: as, start => by
      simp only [mapWithIdx, List.length_cons]
      rw [mapWithIdx_length f as (start + 1)]

theorem mapWithIdx_forall {α β : Type} (f : ℕ → α → β) (P : β → Prop) :
    ∀ (l : List α) (start : ℕ),
      (∀ i a, start ≤ i → i < start + l.length → P (f i a)) →
      ∀ b ∈ mapWithIdx f start l, P b
  | [], _, _, b, hb => by simp [mapWithIdx] at hb
  | a :: as, start, h, b, hb => by
      rcases List.mem_cons.mp hb with rfl | hb'
      · exact h start a (Nat.le_refl _) (by simp)
      · exact mapWithIdx_forall f P as (start + 1)
          (fun i x hi hlt => h i x (by omega) (by simp at hlt ⊢; omega)) b hb'

/-- Counterexample to C7 as stated: with every embedding request failing
(HTTP 500), indexing-time embedding generation still completes and logs
warnings, but every chunk *carries* a (fallback) embedding — no chunk
lacks the embedding field. -/
theorem embeddings_fallback_counterexample :
    (∀ c ∈ (generateChunkEmbeddings true
        (fun _ => .error "HTTP 500: Internal Server Error")
        [⟨"c1", "alpha beta gamma", none, ⟨"a.md", 0, 2⟩⟩,
         ⟨"c2", "delta epsilon", none, ⟨"a.md", 1, 2⟩⟩]).1,
      c.embedding.isSome) ∧
      ¬(∀ c ∈ (generateChunkEmbeddings true
          (fun _ => .error "HTTP 500: Internal Server Error")
          [⟨"c1", "alpha beta gamma", none, ⟨"a.md", 0, 2⟩⟩,
           ⟨"c2", "delta epsilon", none, ⟨"a.md", 1, 2⟩⟩]).1,
        c.embedding = none) ∧
      (generateChunkEmbeddings true
          (fun _ => .error "HTTP 500: Internal Server Error")
          [⟨"c1", "alpha beta gamma", none, ⟨"a.md", 0, 2⟩⟩,
           ⟨"c2", "delta epsilon", none, ⟨"a.md", 1, 2⟩⟩]).2 ≠ [] := by
  refine ⟨by decide, by decide, by decide⟩

/-- C7 (amended): when the embedding provider fails during indexing,
`generateChunkEmbeddings` does not abort: it returns as many chunks as it
was given, every returned chunk carries a (keyword-fallback) embedding,
and warnings are logged. -/
theorem embeddings_fallback_on_failure (chunks : List TextChunk)
    (provider : String → Except String (List ℚ)) (e : String)
    (h : batchEmbedRaw provider (chunks.map (fun c => c.content))
      = .error e) :
    (generateChunkEmbeddings true provider chunks).1.length = chunks.length ∧
      (∀ c ∈ (generateChunkEmbeddings true provider chunks).1,
        c.embedding.isSome) ∧
      (generateChunkEmbeddings true provider chunks).2 ≠ [] := by
  have hbatch : generateEmbeddingsBatch provider
      (chunks.map (fun c => c.content))
      = .error ("Failed to generate embeddings: " ++ e) := by
    simp [generateEmbeddingsBatch, h]
  rw [generateChunkEmbeddings]
  simp only [Bool.not_true, Bool.false_eq_true, if_false, hbatch]
  refine ⟨mapWithIdx_length _ _ _, ?_, by simp⟩
  refine mapWithIdx_forall _ _ chunks 0 (fun i a _ hlt => ?_)
  have hlen : (generateFallbackEmbeddings chunks).length = chunks.length := by
    simp [generateFallbackEmbeddings]
  have hne : (generateFallbackEmbeddings chunks).get? i ≠ none := by
    simp only [ne_eq, List.get?_eq_none, hlen]
    omega
  simp only [Option.isSome_iff_ne_none]
  simpa using hne

/-- Witness for `embeddings_fallback_on_failure`. -/
theorem embeddings_fallback_on_failure_witness :
    batchEmbedRaw (fun _ => .error "HTTP 500: Internal Server Error")
        (([⟨"c1", "alpha beta", none, ⟨"a.md", 0, 1⟩⟩] :
            List TextChunk).map (fun c => c.content))
        = .error "HTTP 500: Internal Server Error" ∧
      (generateChunkEmbeddings true
          (fun _ => .error "HTTP 500: Internal Server Error")
          [⟨"c1", "alpha beta", none, ⟨"a.md", 0, 1⟩⟩]).1.length = 1 ∧
      (generateChunkEmbeddings true
          (fun _ => .error "HTTP 500: Internal Server Error")
          [⟨"c1", "alpha beta", none, ⟨"a.md", 0, 1⟩⟩]).2 ≠ [] := by
  refine ⟨rfl, ?_, ?_⟩
  · exact (embeddings_fallback_on_failure
      [⟨"c1", "alpha beta", none, ⟨"a.md", 0, 1⟩⟩]
      (fun _ => .error "HTTP 500: Internal Server Error")
      "HTTP 500: Internal Server Error" rfl).1
  · exact (embeddings_fallback_on_failure
      [⟨"c1", "alpha beta", none, ⟨"a.md", 0, 1⟩⟩]
      (fun _ => .error "HTTP 500: Internal Server Error")
      "HTTP 500: Internal Server Error" rfl).2.2

/-! ## Cosine similarity (claim C10) -/

theorem cosine_foldl :
    ∀ (a b : List ℝ), a.length = b.length → ∀ (d x y : ℝ),
      (List.zip a b).foldl
          (fun (acc : ℝ × ℝ × ℝ) p =>
            (acc.1 + p.1 * p.2, acc.2.1 + p.1 * p.1, acc.2.2 + p.2 * p.2))
          (d, x, y)
        = (d + dotList a b, x + (a.map (fun t => t ^ 2)).sum,
           y + (b.map (fun t => t ^ 2)).sum)
  | [], [], _, d, x, y => by simp [dotList]
  | [], _ :: _, h, _, _, _ => by simp at h
  | _ :: _, [], h, _, _, _ => by simp at h
  | p :: a, q :: b, h, d, x, y => by
      simp only [List.zip_cons_cons, List.foldl_cons]
      rw [cosine_foldl a b (by simpa using h)]
      simp only [dotList, List.zipWith_cons_cons, List.sum_cons, List.map_cons,
        Prod.mk.injEq]
      refine ⟨by ring, by ring, by ring⟩

/-- C10 (confirmed): `cosineSimilarity` rejects vectors of different
lengths with the thrown message; for equal lengths it is total and
returns `dot(a,b)/(‖a‖·‖b‖)`, with result `0` whenever either norm is
`0`, so the division is never by zero. -/
theorem cosineSimilarity_contract :
    (∀ a b : List ℝ, a.length ≠ b.length →
        cosineSimilarity a b = .error "Vectors must have the same length") ∧
      (∀ a b : List ℝ, a.length = b.length →
        cosineSimilarity a b =
          .ok (if normList a = 0 ∨ normList b = 0 then 0
               else dotList a b / (normList a * normList b))) := by
  constructor
  · intro a b h
    rw [cosineSimilarity, if_pos h]
  · intro a b h
    rw [cosineSimilarity, if_neg (by simp [h])]
    dsimp only
    rw [cosine_foldl a b h 0 0 0]
    simp only [zero_add]
    rw [show Real.sqrt ((a.map (fun t => t ^ 2)).sum) = normList a from rfl,
        show Real.sqrt ((b.map (fun t => t ^ 2)).sum) = normList b from rfl]
    by_cases hz : normList a = 0 ∨ normList b = 0
    · rw [if_pos hz, if_pos hz]
    · rw [if_neg hz, if_neg hz]

/-- Witness for `cosineSimilarity_contract`. -/
theorem cosineSimilarity_contract_witness :
    cosineSimilarity [(1 : ℝ)] [1, 2]
        = .error "Vectors must have the same length" ∧
      cosineSimilarity [(0 : ℝ), 1] [(0 : ℝ), 1] = .ok 1 := by
  constructor
  · exact cosineSimilarity_contract.1 [(1 : ℝ)] [1, 2] (by norm_num)
  · rw [cosineSimilarity_contract.2 [(0 : ℝ), 1] [(0 : ℝ), 1] rfl]
    have hn : normList [(0 : ℝ), 1] = 1 := by
      norm_num [normList, Real.sqrt_one]
    have hd : dotList [(0 : ℝ), 1] [(0 : ℝ), 1] = 1 := by
      norm_num [dotList]
    rw [hn, hd]
    norm_num

/-! ## Tool-loop lemmas (claims C4 and C9) -/

theorem toolLoopGo_llmCalls_le {J : Type} (llm : ℕ → String → Except String String)
    (exec : String → Option J → Except String String)
    (jsonParse : String → Option J) (q : String) :
    ∀ (fuel calls : ℕ) (prompt ans : String) (used : List String)
      (tr : List (String × Option J)),
      (toolLoopGo llm exec jsonParse q fuel calls prompt ans used tr).llmCalls
        ≤ calls + fuel
  | 0, calls, _, _, _, _ => by simp [toolLoopGo]
  | fuel + 1, calls, prompt, ans, used, tr => by
      simp only [toolLoopGo]
      cases hllm : llm calls prompt with
      | error e => dsimp only; omega
      | ok r =>
          try dsimp only
          cases hf : findToolMatch r with
          | none => try dsimp only
                    omega
          | some t =>
              try dsimp only
              obtain ⟨nm, is, pre⟩ := t
              try dsimp only
              cases hex : exec nm (parseInputJs jsonParse is) with
              | error e => try dsimp only
                           omega
              | ok res =>
                  try dsimp only
                  calc (toolLoopGo llm exec jsonParse q fuel (calls + 1) _ _ _ _).llmCalls
                      ≤ (calls + 1) + fuel :=
                        toolLoopGo_llmCalls_le llm exec jsonParse q fuel
                          (calls + 1) _ _ _ _
                    _ = calls + (fuel + 1) := by omega

theorem toolLoopGo_llmCalls_exact {J : Type}
    (llm : ℕ → String → Except String String)
    (exec : String → Option J → Except String String)
    (jsonParse : String → Option J) (q : String)
    (hllm : ∀ i p, ∃ r, llm i p = Except.ok r ∧ (findToolMatch r).isSome)
    (hexec : ∀ n j, ∃ s, exec n j = Except.ok s) :
    ∀ (fuel calls : ℕ) (prompt ans : String) (used : List String)
      (tr : List (String × Option J)),
      (toolLoopGo llm exec jsonParse q fuel calls prompt ans used tr).llmCalls
        = calls + fuel
  | 0, calls, _, _, _, _ => by simp [toolLoopGo]
  | fuel + 1, calls, prompt, ans, used, tr => by
      simp only [toolLoopGo]
      cases hllmc : llm calls prompt with
      | error e =>
          exfalso
          obtain ⟨r, hr, _⟩ := hllm calls prompt
          rw [hr] at hllmc
          exact absurd hllmc (by simp)
      | ok r =>
          try dsimp only
          cases hf : findToolMatch r with
          | none =>
              exfalso
              obtain ⟨r', hr', hsome⟩ := hllm calls prompt
              rw [hllmc] at hr'
              obtain rfl : r = r' := by injection hr'
              rw [hf] at hsome
              simp at hsome
          | some t =>
              try dsimp only
              obtain ⟨nm, is, pre⟩ := t
              try dsimp only
              cases hex : exec nm (parseInputJs jsonParse is) with
              | error e =>
                  exfalso
                  obtain ⟨s', hs'⟩ := hexec nm (parseInputJs jsonParse is)
                  rw [hs'] at hex
                  exact absurd hex (by simp)
              | ok res =>
                  try dsimp only
                  rw [toolLoopGo_llmCalls_exact llm exec jsonParse q hllm hexec
                        fuel (calls + 1) _ _ _ _]
                  omega

theorem toolLoopGo_calls_mono {J : Type}
    (llm : ℕ → String → Except String String)
    (exec : String → Option J → Except String String)
    (jsonParse : String → Option J) (q : String) :
    ∀ (fuel calls : ℕ) (prompt ans : String) (used : List String)
      (tr : List (String × Option J)),
      calls ≤
        (toolLoopGo llm exec jsonParse q fuel calls prompt ans used tr).llmCalls
  | 0, calls, _, _, _, _ => by simp [toolLoopGo]
  | fuel + 1, calls, prompt, ans, used, tr => by
      simp only [toolLoopGo]
      cases hllm : llm calls prompt with
      | error e => try dsimp only
                   omega
      | ok r =>
          try dsimp only
          cases hf : findToolMatch r with
          | none => try dsimp only
                    omega
          | some t =>
              try dsimp only
              obtain ⟨nm, is, pre⟩ := t
              try dsimp only
              cases hex : exec nm (parseInputJs jsonParse is) with
              | error e => try dsimp only
                           omega
              | ok res =>
                  try dsimp only
                  calc calls ≤ calls + 1 := by omega
                    _ ≤ _ :=
                      toolLoopGo_calls_mono llm exec jsonParse q fuel
                        (calls + 1) _ _ _ _

theorem toolLoopGo_calls_succ_le {J : Type}
    (llm : ℕ → String → Except String String)
    (exec : String → Option J → Except String String)
    (jsonParse : String → Option J) (q : String)
    (fuel calls : ℕ) (prompt ans : String) (used : List String)
    (tr : List (String × Option J)) :
    calls + 1 ≤
      (toolLoopGo llm exec jsonParse q (fuel + 1) calls prompt ans used
        tr).llmCalls := by
  simp only [toolLoopGo]
  cases hllm : llm calls prompt with
  | error e => try dsimp only
               omega
  | ok r =>
      try dsimp only
      cases hf : findToolMatch r with
      | none => try dsimp only
                omega
      | some t =>
          try dsimp only
          obtain ⟨nm, is, pre⟩ := t
          try dsimp only
          cases hex : exec nm (parseInputJs jsonParse is) with
          | error e => try dsimp only
                       omega
          | ok res =>
              try dsimp only
              exact toolLoopGo_calls_mono llm exec jsonParse q fuel
                (calls + 1) _ _ _ _

theorem toolLoopGo_trace_extends {J : Type}
    (llm : ℕ → String → Except String String)
    (exec : String → Option J → Except String String)
    (jsonParse : String → Option J) (q : String) :
    ∀ (fuel calls : ℕ) (prompt ans : String) (used : List String)
      (tr : List (String × Option J)),
      ∃ rest,
        (toolLoopGo llm exec jsonParse q fuel calls prompt ans used
          tr).toolTrace = tr ++ rest
  | 0, calls, _, _, _, tr => ⟨[], by simp [toolLoopGo]⟩
  | fuel + 1, calls, prompt, ans, used, tr => by
      simp only [toolLoopGo]
      cases hllm : llm calls prompt with
      | error e => exact ⟨[], by simp⟩
      | ok r =>
          try dsimp only
          cases hf : findToolMatch r with
          | none => exact ⟨[], by simp⟩
          | some t =>
              try dsimp only
              obtain ⟨nm, is, pre⟩ := t
              try dsimp only
              cases hex : exec nm (parseInputJs jsonParse is) with
              | error e =>
                  exact ⟨[(nm, parseInputJs jsonParse is)], by simp⟩
              | ok res =>
                  obtain ⟨rest, hrest⟩ :=
                    toolLoopGo_trace_extends llm exec jsonParse q fuel
                      (calls + 1)
                      (followupPrompt q res)
                      (if jsTrim pre ≠ "" then ans ++ jsTrim pre ++ "\n\n"
                       else ans)
                      (if used.contains nm then used else used ++ [nm])
                      (tr ++ [(nm, parseInputJs jsonParse is)])
                  exact ⟨_, by rw [hrest, List.append_assoc]⟩

/-- C4 (confirmed): the tool loop of `_generateAnswerWithTools` attempts
at most 5 LLM round trips for every oracle; when every response carries a
tool directive and no call fails, it performs exactly 5; and an exception
inside one iteration (a failing LLM call) breaks the loop, returning the
accumulated partial answer text with the instrumented state unchanged.
The loop is a total function, so it returns a string and never throws. -/
theorem tool_loop_iteration_cap {J : Type}
    (llm : ℕ → String → Except String String)
    (exec : String → Option J → Except String String)
    (jsonParse : String → Option J)
    (systemPrompt question contextSection toolsDescription : String) :
    (generateAnswerWithTools llm exec jsonParse systemPrompt question
        contextSection toolsDescription).llmCalls ≤ 5 ∧
      ((∀ i p, ∃ r, llm i p = Except.ok r ∧ (findToolMatch r).isSome) →
        (∀ n j, ∃ s, exec n j = Except.ok s) →
        (generateAnswerWithTools llm exec jsonParse systemPrompt question
          contextSection toolsDescription).llmCalls = 5) ∧
      (∀ (fuel calls : ℕ) (prompt ans : String) (used : List String)
          (tr : List (String × Option J)) (e : String),
        llm calls prompt = Except.error e →
        toolLoopGo llm exec jsonParse question (fuel + 1) calls prompt ans
            used tr
          = ⟨ans, calls + 1, tr, used⟩) := by
  refine ⟨?_, ?_, ?_⟩
  · simpa [generateAnswerWithTools] using
      toolLoopGo_llmCalls_le llm exec jsonParse question 5 0 _ "" [] []
  · intro h1 h2
    simpa [generateAnswerWithTools] using
      toolLoopGo_llmCalls_exact llm exec jsonParse question h1 h2 5 0 _ "" [] []
  · intro fuel calls prompt ans used tr e he
    simp [toolLoopGo, he]

/-- Witness for `tool_loop_iteration_cap`. -/
theorem tool_loop_iteration_cap_witness :
    (generateAnswerWithTools (J := Unit)
        (fun _ _ => Except.ok "<tool>abc</tool>")
        (fun _ _ => Except.ok "done") (fun _ => none)
        "sys" "q" "" "tools").llmCalls = 5 :=
  (tool_loop_iteration_cap (J := Unit)
      (fun _ _ => Except.ok "<tool>abc</tool>")
      (fun _ _ => Except.ok "done") (fun _ => none)
      "sys" "q" "" "tools").2.1
    (fun _ _ => ⟨"<tool>abc</tool>", rfl, by decide⟩)
    (fun _ _ => ⟨"done", rfl⟩)

/-- C9 (confirmed): a response whose `<input>` element is not valid JSON
(`jsonParse` fails) is treated as a no-input invocation: the named tool
is still executed with `input = undefined` and the loop continues to a
second LLM call; malformed input JSON aborts nothing. -/
theorem malformed_input_still_executes_tool {J : Type}
    (llm : ℕ → String → Except String String)
    (exec : String → Option J → Except String String)
    (jsonParse : String → Option J)
    (systemPrompt question contextSection toolsDescription : String)
    (r nm s pre res : String)
    (hllm : llm 0 (systemPrompt ++ "\n\nQuestion: " ++ question ++
        contextSection ++ "\n\n" ++ toolsDescription) = Except.ok r)
    (hfind : findToolMatch r = some (nm, some s, pre))
    (hs : s ≠ "")
    (hparse : jsonParse s = none)
    (hexec : exec nm none = Except.ok res) :
    (generateAnswerWithTools llm exec jsonParse systemPrompt question
        contextSection toolsDescription).toolTrace.head? = some (nm, none) ∧
      2 ≤ (generateAnswerWithTools llm exec jsonParse systemPrompt question
        contextSection toolsDescription).llmCalls := by
  have hstep : toolLoopGo llm exec jsonParse question 5 0
      (systemPrompt ++ "\n\nQuestion: " ++ question ++ contextSection ++
        "\n\n" ++ toolsDescription) "" [] []
      = toolLoopGo llm exec jsonParse question 4 1 (followupPrompt question res)
          (if jsTrim pre ≠ "" then "" ++ jsTrim pre ++ "\n\n" else "")
          [nm] [(nm, none)] := by
    simp only [toolLoopGo, hllm, hfind]
    rw [show parseInputJs jsonParse (some s) = none by
        simp [parseInputJs, hs, hparse]]
    simp [hexec]
  constructor
  · simp only [generateAnswerWithTools, hstep]
    obtain ⟨rest, hrest⟩ :=
      toolLoopGo_trace_extends llm exec jsonParse question 4 1
        (followupPrompt question res)
        (if jsTrim pre ≠ "" then "" ++ jsTrim pre ++ "\n\n" else "")
        [nm] [(nm, none)]
    rw [hrest]
    simp
  · simp only [generateAnswerWithTools, hstep]
    exact toolLoopGo_calls_succ_le llm exec jsonParse question 3 1 _ _ _ _

/-- Witness for `malformed_input_still_executes_tool`. -/
theorem malformed_input_still_executes_tool_witness :
    (generateAnswerWithTools (J := Unit)
        (fun _ _ => Except.ok "<tool>abc</tool><input>notjson</input>")
        (fun _ _ => Except.ok "done") (fun _ => none)
        "sys" "q" "" "tools").toolTrace.head? = some ("abc", none) ∧
      2 ≤ (generateAnswerWithTools (J := Unit)
        (fun _ _ => Except.ok "<tool>abc</tool><input>notjson</input>")
        (fun _ _ => Except.ok "done") (fun _ => none)
        "sys" "q" "" "tools").llmCalls :=
  malformed_input_still_executes_tool (J := Unit)
    (fun _ _ => Except.ok "<tool>abc</tool><input>notjson</input>")
    (fun _ _ => Except.ok "done") (fun _ => none)
    "sys" "q" "" "tools"
    "<tool>abc</tool><input>notjson</input>" "abc" "notjson" "" "done"
    rfl (by decide) (by decide) rfl rfl

/-! ## Tool executor contract (claim C5) -/

/-- C5 (confirmed): `_executeTool` is a total function into strings (it
never throws): with the CRM service initialized, invoking `get_user` with
no input — or any input whose `user_id` is missing or empty — returns
exactly `"Error: user_id is required for get_user"`; an unknown tool name
returns `"Unknown tool: <name>"`; and an internal collaborator error
(here git) is caught and returned as `"Error executing tool: <msg>"`. -/
theorem execute_tool_contract :
    (∀ env : ToolEnv, env.crm.isSome = true →
        executeTool env "get_user" none
          = "Error: user_id is required for get_user") ∧
      (∀ (env : ToolEnv) (input : Option ToolInput), env.crm.isSome = true →
        truthy (input.getD emptyInput).user_id = false →
        executeTool env "get_user" input
          = "Error: user_id is required for get_user") ∧
      (∀ (env : ToolEnv) (name : String) (input : Option ToolInput),
        env.crm.isSome = true → name ∉ toolNames →
        executeTool env name input = "Unknown tool: " ++ name) ∧
      (∀ (env : ToolEnv) (input : Option ToolInput) (msg : String),
        env.crm.isSome = true → env.gitBranch = .error msg →
        executeTool env "git_branch" input
          = "Error executing tool: " ++ msg) := by
  refine ⟨?_, ?_, ?_, ?_⟩
  · intro env hcrm
    obtain ⟨c, hc⟩ := Option.isSome_iff_exists.mp hcrm
    simp [executeTool, hc, emptyInput, truthy]
  · intro env input hcrm htr
    obtain ⟨c, hc⟩ := Option.isSome_iff_exists.mp hcrm
    simp [executeTool, hc, htr]
  · intro env name input hcrm hn
    obtain ⟨c, hc⟩ := Option.isSome_iff_exists.mp hcrm
    have hne : ∀ t ∈ toolNames, ¬(name = t) := fun t ht heq => hn (heq ▸ ht)
    simp only [executeTool, hc]
    rw [if_neg (hne "git_branch" (by decide)),
        if_neg (hne "git_status" (by decide)),
        if_neg (hne "get_user" (by decide)),
        if_neg (hne "list_tickets" (by decide)),
        if_neg (hne "create_ticket" (by decide)),
        if_neg (hne "update_ticket" (by decide)),
        if_neg (hne "add_message" (by decide)),
        if_neg (hne "search_tickets" (by decide)),
        if_neg (hne "list_tasks" (by decide)),
        if_neg (hne "get_task" (by decide)),
        if_neg (hne "create_task" (by decide)),
        if_neg (hne "update_task" (by decide))]
  · intro env input msg hcrm hgit
    obtain ⟨c, hc⟩ := Option.isSome_iff_exists.mp hcrm
    simp [executeTool, hc, hgit]

/-- Witness for `execute_tool_contract`. -/
theorem execute_tool_contract_witness :
    executeTool witnessEnv "get_user" none
        = "Error: user_id is required for get_user" ∧
      executeTool witnessEnv "get_user" (some { user_id := some "" })
        = "Error: user_id is required for get_user" ∧
      executeTool witnessEnv "frobnicate" none = "Unknown tool: frobnicate" ∧
      executeTool witnessEnv "git_branch" none
        = "Error executing tool: boom" :=
  ⟨execute_tool_contract.1 witnessEnv rfl,
   execute_tool_contract.2.1 witnessEnv (some { user_id := some "" }) rfl rfl,
   execute_tool_contract.2.2.1 witnessEnv "frobnicate" none rfl (by decide),
   execute_tool_contract.2.2.2 witnessEnv none "boom" rfl rfl⟩

end CodeAssistant
